import Mathlib

/-!
Shallow embedding of the job scheduling and lifecycle subsystem of this
repository (`app/services/task_queue.py`, with the child-process protocol of
`app/inference_worker.py`).

Conventions of the embedding:
* Timestamps (`datetime.now()`) are abstract instants modeled as `Int`
  milliseconds; they are supplied as explicit arguments to each operation.
* The in-memory registry `self._tasks : Dict[str, TaskResult]` is an
  association list with unique keys (Python dict semantics: assignment
  overwrites, `del` removes the key).
* Job identifiers (`uuid.uuid4()`) are externally supplied `String`s.
* Fallible external collaborators (the database session of
  `_save_task_to_db` / `_update_task_in_db`, i.e. the History Gateway) are
  modeled by a `gatewayOk : Bool` argument: the Python code swallows every
  gateway exception, so a failed call leaves the row store unchanged and
  never propagates.
* The submitted callable `task.func(*args, **kwargs)` is opaque; its
  observable behaviour when invoked is modeled by the field
  `Task.funcOutcome : Except String Value` (the raised exception's `str(e)`,
  or the returned payload).
* `json.dump`/`json.loads` on the child-process handoff files are the Python
  standard library; `json.loads` is modeled by a `parse` argument returning
  either the decoded worker output or the decoder's error message.
-/

namespace App

/-- The `TaskStatus` enum of `task_queue.py`. -/
inductive TaskStatus where
  | pending
  | running
  | completed
  | failed
  | cancelled
deriving DecidableEq, Repr

/-- The terminal statuses, as used by `get_task_result` and
`cleanup_old_tasks`: `COMPLETED`, `FAILED`, `CANCELLED`. -/
def TaskStatus.isTerminal : TaskStatus → Bool
  | .completed => true
  | .failed => true
  | .cancelled => true
  | _ => false

/-- A JSON-like result payload returned by the compute routine
(`result` in `_execute_task`): a string, a string-valued dict, or `None`. -/
inductive Value where
  | vstr (s : String)
  | vdict (entries : List (String × String))
  | vnone
deriving DecidableEq, Repr

/-- Python `d.get(k)` on a string-valued dict: the value, or `None` when
absent. -/
def dictGet (entries : List (String × String)) (k : String) : Option String :=
  match entries with
  | [] => none
  | p :: rest => if p.1 = k then some p.2 else dictGet rest k

/-- Python truthiness of an `Optional[str]`: `None` and `""` are falsy. -/
def truthy : Option String → Bool
  | none => false
  | some s => s ≠ ""

/-- Python `a or b` on `Optional[str]` operands. -/
def pyOrStr (a b : Option String) : Option String :=
  if truthy a then a else b

/-- Python `os.path.basename` for POSIX paths. -/
def basename (p : String) : String :=
  (p.splitOn "/").getLastD p

/-- The `TaskResult` dataclass: the mutable in-memory record of one job. -/
structure TaskResult where
  task_id : String
  status : TaskStatus
  result : Option Value := none
  error : Option String := none
  created_at : Int := 0
  started_at : Option Int := none
  completed_at : Option Int := none
  position_in_queue : Nat := 0
  task_type : Option String := none
  prompt : Option String := none
  negative_prompt : Option String := none
  parameters : Option (List (String × String)) := none
  user_id : Option Int := none
  result_path : Option String := none
  result_filename : Option String := none
deriving DecidableEq, Repr

instance : DecidableEq (Except String Value)
  | .ok a, .ok b =>
    if h : a = b then .isTrue (by rw [h])
    else .isFalse (fun hc => h (Except.ok.inj hc))
  | .error a, .error b =>
    if h : a = b then .isTrue (by rw [h])
    else .isFalse (fun hc => h (Except.error.inj hc))
  | .ok _, .error _ => .isFalse (fun hc => Except.noConfusion hc)
  | .error _, .ok _ => .isFalse (fun hc => Except.noConfusion hc)

/-- The `Task` dataclass: the work item placed on the queue.  The callable and
its arguments are opaque; `funcOutcome` is the callable's behaviour when
invoked (`.error msg` models a raised exception with `str(e) = msg`). -/
structure Task where
  task_id : String
  funcOutcome : Except String Value
  priority : Int := 0
  created_at : Int := 0
  task_type : Option String := none
  prompt : Option String := none
  negative_prompt : Option String := none
  parameters : Option (List (String × String)) := none
  user_id : Option Int := none
deriving DecidableEq, Repr

/-- A `TaskHistory` row in the database (History Gateway). -/
structure DbRow where
  task_id : String
  user_id : Option Int := none
  task_type : Option String := none
  prompt : Option String := none
  negative_prompt : Option String := none
  parameters : Option (List (String × String)) := none
  status : String
  started_at : Option Int := none
  completed_at : Option Int := none
  result_path : Option String := none
  result_filename : Option String := none
  error_message : Option String := none
  execution_time : Option Int := none
deriving DecidableEq, Repr

/-- The keyword arguments of `_update_task_in_db`; a `none` field is a
Python `None` argument, which leaves the column untouched. -/
structure DbFields where
  status : Option String := none
  started_at : Option Int := none
  completed_at : Option Int := none
  result_path : Option String := none
  result_filename : Option String := none
  error_message : Option String := none
  execution_time : Option Int := none
deriving DecidableEq, Repr

/-- Apply the non-`None` fields of `_update_task_in_db` to one row. -/
def applyDbFields (row : DbRow) (f : DbFields) : DbRow :=
  { row with
    status := match f.status with | some v => v | none => row.status
    started_at := match f.started_at with | some v => some v | none => row.started_at
    completed_at := match f.completed_at with | some v => some v | none => row.completed_at
    result_path := match f.result_path with | some v => some v | none => row.result_path
    result_filename := match f.result_filename with | some v => some v | none => row.result_filename
    error_message := match f.error_message with | some v => some v | none => row.error_message
    execution_time := match f.execution_time with | some v => some v | none => row.execution_time }

/-- Model of `_update_task_in_db`: best-effort update of the row whose `task_id`
matches; a gateway failure (`gatewayOk = false`) is swallowed, and a missing
row is a no-op. -/
def dbUpdateRow (db : List DbRow) (id : String) (gatewayOk : Bool)
    (f : DbFields) : List DbRow :=
  if gatewayOk then
    db.map fun row => if row.task_id = id then applyDbFields row f else row
  else db

/-- The in-memory coordinator state: the pending queue (FIFO, enqueue at the
back), the registry `self._tasks`, the `self._running` flag, and the
database rows reachable through the History Gateway. -/
structure QueueState where
  queue : List Task := []
  tasks : List (String × TaskResult) := []
  running : Bool := false
  db : List DbRow := []
deriving DecidableEq, Repr

/-- Lookup `self._tasks.get(task_id)`. -/
def lookupTask : List (String × TaskResult) → String → Option TaskResult
  | [], _ => none
  | p :: rest, id => if p.1 = id then some p.2 else lookupTask rest id

/-- In-place mutation of the record stored under `id` (Python mutates the
`TaskResult` object held in the dict). -/
def updateTask (tasks : List (String × TaskResult)) (id : String)
    (f : TaskResult → TaskResult) : List (String × TaskResult) :=
  tasks.map fun p => if p.1 = id then (p.1, f p.2) else p

/-- Assignment `self._tasks[task_id] = task_result`: it overwrites an
existing key and otherwise appends a new entry. -/
def insertTask (tasks : List (String × TaskResult)) (id : String)
    (r : TaskResult) : List (String × TaskResult) :=
  if tasks.any (fun p => p.1 = id) then
    tasks.map fun p => if p.1 = id then (id, r) else p
  else tasks ++ [(id, r)]

/-- The metadata-bearing arguments of `TaskQueue.submit` (`_task_type`,
`_prompt`, `_negative_prompt`, `_user_id`, plus the `prompt` /
`negative_prompt` entries that may sit in `**kwargs`), together with the
behaviour of the submitted callable. -/
structure SubmitArgs where
  funcOutcome : Except String Value := .ok .vnone
  priority : Int := 0
  task_type : Option String := none
  prompt0 : Option String := none
  kwargsPrompt : Option String := none
  negative_prompt0 : Option String := none
  kwargsNegativePrompt : Option String := none
  parameters : Option (List (String × String)) := none
  user_id : Option Int := none
deriving DecidableEq, Repr

/-- Model of `_save_task_to_db`: best-effort insert of a `pending` row; any gateway
exception is caught and logged, so on failure the store is unchanged. -/
def saveTaskToDb (db : List DbRow) (id : String) (task_type prompt
    negative_prompt : Option String)
    (parameters : Option (List (String × String))) (user_id : Option Int)
    (gatewayOk : Bool) : List DbRow :=
  if gatewayOk then
    db ++ [{ task_id := id, user_id := user_id, task_type := task_type,
             prompt := prompt, negative_prompt := negative_prompt,
             parameters := parameters, status := "pending" }]
  else db

namespace TaskQueue

/-- The value `prompt = _prompt or kwargs.get("prompt")` inside `submit`. -/
def submittedPrompt (a : SubmitArgs) : Option String :=
  pyOrStr a.prompt0 a.kwargsPrompt

/-- The value `negative_prompt = _negative_prompt or
kwargs.get("negative_prompt")` inside `submit`. -/
def submittedNegativePrompt (a : SubmitArgs) : Option String :=
  pyOrStr a.negative_prompt0 a.kwargsNegativePrompt

/-- The `Task` built by `submit`. -/
def submittedTask (newId : String) (now : Int) (a : SubmitArgs) : Task :=
  { task_id := newId, funcOutcome := a.funcOutcome,
    priority := a.priority, created_at := now,
    task_type := a.task_type, prompt := submittedPrompt a,
    negative_prompt := submittedNegativePrompt a,
    parameters := a.parameters, user_id := a.user_id }

/-- The `pending` `TaskResult` built by `submit`; `queueLen` is
`self._queue.qsize()` at submission time. -/
def submittedRecord (queueLen : Nat) (newId : String) (now : Int)
    (a : SubmitArgs) : TaskResult :=
  { task_id := newId, status := .pending, created_at := now,
    position_in_queue := queueLen + 1, task_type := a.task_type,
    prompt := submittedPrompt a,
    negative_prompt := submittedNegativePrompt a,
    parameters := a.parameters, user_id := a.user_id }

/-- The state `submit` leaves behind when the queue is running: store the
record, enqueue the task, and best-effort write a `pending` row only when
both `task_type` and the effective `prompt` are truthy
(`if task_type and prompt:` at task_queue.py:601). -/
def submitState (s : QueueState) (newId : String) (now : Int)
    (a : SubmitArgs) (gatewayOk : Bool) : QueueState :=
  if truthy a.task_type && truthy (submittedPrompt a) then
    { s with
      tasks := insertTask s.tasks newId
        (submittedRecord s.queue.length newId now a)
      queue := s.queue ++ [submittedTask newId now a]
      db := saveTaskToDb s.db newId a.task_type (submittedPrompt a)
        (submittedNegativePrompt a) a.parameters a.user_id gatewayOk }
  else
    { s with
      tasks := insertTask s.tasks newId
        (submittedRecord s.queue.length newId now a)
      queue := s.queue ++ [submittedTask newId now a] }

/-- Model of `TaskQueue.submit` (task_queue.py:530-613).  Raises
`RuntimeError("任务队列未启动")` when the queue is not running; otherwise
applies `submitState` and returns the new task id immediately. -/
def submit (s : QueueState) (newId : String) (now : Int) (a : SubmitArgs)
    (gatewayOk : Bool) : Except String (String × QueueState) :=
  if s.running = false then .error "任务队列未启动"
  else .ok (newId, submitState s newId now a gatewayOk)

/-- Model of `TaskQueue.cancel_task` (task_queue.py:667-693): returns `False` for an
unknown id or a non-`PENDING` record; otherwise marks the record
`CANCELLED`, stamps `completed_at`, best-effort updates the database row,
and returns `True`. -/
def cancel_task (s : QueueState) (id : String) (now : Int)
    (gatewayOk : Bool) : Bool × QueueState :=
  match lookupTask s.tasks id with
  | none => (false, s)
  | some r =>
    if r.status ≠ .pending then (false, s)
    else
      (true,
       { s with
         tasks := updateTask s.tasks id fun t =>
           { t with status := .cancelled, completed_at := some now }
         db := dbUpdateRow s.db id gatewayOk
           { status := some "cancelled", completed_at := some now } })

/-- The per-status counters of `TaskQueue.get_queue_info`. -/
structure QueueInfo where
  is_running : Bool
  gpu_count : Nat
  max_workers : Nat
  queue_size : Nat
  pending : Nat
  running : Nat
  completed : Nat
  failed : Nat
  total : Nat
deriving DecidableEq, Repr

/-- Model of `TaskQueue.get_queue_info` (task_queue.py:695-728): per-status counts
over the registry, optionally restricted to one user; `queue_size` stays
global. -/
def get_queue_info (gpu_count max_workers : Nat) (s : QueueState)
    (user_id : Option Int) : QueueInfo :=
  let tasks_to_count : List (String × TaskResult) :=
    match user_id with
    | some _ => s.tasks.filter fun p => p.2.user_id = user_id
    | none => s.tasks
  { is_running := s.running
    gpu_count := gpu_count
    max_workers := max_workers
    queue_size := s.queue.length
    pending := (tasks_to_count.filter fun p => p.2.status = .pending).length
    running := (tasks_to_count.filter fun p => p.2.status = .running).length
    completed := (tasks_to_count.filter fun p => p.2.status = .completed).length
    failed := (tasks_to_count.filter fun p => p.2.status = .failed).length
    total := tasks_to_count.length }

/-- Milliseconds per hour, for `timedelta(hours=max_age_hours)`. -/
def msPerHour : Int := 3600000

/-- The removal condition of `cleanup_old_tasks`: a terminal record whose
`completed_at` is set and strictly before `now - max_age_hours` hours. -/
def removable (now : Int) (max_age_hours : Nat) (r : TaskResult) : Bool :=
  r.status.isTerminal &&
    match r.completed_at with
    | some c => c < now - (max_age_hours : Int) * msPerHour
    | none => false

/-- Model of `TaskQueue.cleanup_old_tasks` (task_queue.py:730-760): collect the ids
of removable records, delete each collected id from the registry, and
return how many were deleted. -/
def cleanup_old_tasks (s : QueueState) (now : Int) (max_age_hours : Nat) :
    Nat × QueueState :=
  let task_ids_to_remove :=
    (s.tasks.filter fun p => removable now max_age_hours p.2).map Prod.fst
  let tasks' := s.tasks.filter fun p => ¬ p.1 ∈ task_ids_to_remove
  (task_ids_to_remove.length, { s with tasks := tasks' })

/-- The observable outcome of one bounded run of the `get_task_result` poll
loop: either the loop returned a value, or it was still polling when the
iteration budget ran out. -/
inductive PollResult where
  | returned (r : Option TaskResult)
  | stillPolling
deriving DecidableEq, Repr

/-- Python truthiness of the `timeout` argument of `get_task_result`:
`None` and `0` are falsy, every other number is truthy. -/
def timeoutTruthy : Option Int → Bool
  | none => false
  | some t => t ≠ 0

/-- One-iteration-at-a-time unfolding of the `while True` poll loop of
`TaskQueue.get_task_result` (task_queue.py:632-665) against a fixed
registry.  `elapsed` is `time.time() - start_time` in milliseconds; each
iteration ends with `asyncio.sleep(0.5)`, adding 500 ms.  `fuel` bounds how
many iterations are observed. -/
def get_task_result_fuel (tasks : List (String × TaskResult)) (id : String)
    (timeout : Option Int) (elapsed : Int) : Nat → PollResult
  | 0 => .stillPolling
  | fuel + 1 =>
    match lookupTask tasks id with
    | none => .returned none
    | some r =>
      if r.status.isTerminal then .returned (some r)
      else if timeoutTruthy timeout && elapsed > timeout.getD 0 then
        .returned (some r)
      else get_task_result_fuel tasks id timeout (elapsed + 500) fuel

end TaskQueue

/-- The `{status, result}` / `{status, error}` JSON object written by the
child process (`inference_worker.py`) to the output file. -/
structure WorkerOutput where
  status : Option String := none
  result : Option Value := none
  error : Option String := none
deriving DecidableEq, Repr

/-- Observable behaviour of one spawned child process: its exit code, its
captured standard error stream, and the content of the output file after it
exits. -/
structure ChildRun where
  exit_code : Int := 0
  stderr : String := ""
  output_content : String := ""
deriving DecidableEq, Repr

/-- The execution-mode switch `settings.task_queue.execution_mode`. -/
inductive ExecMode where
  | thread
  | process
deriving DecidableEq, Repr

/-- Environment of one `_execute_task` call: the configured mode, the
temporary file names produced by `tempfile.NamedTemporaryFile`, the child
process behaviour, and the behaviour of `json.loads` on the output-file
content (`.error msg` models a raised decode exception with message
`msg`). -/
structure ExecEnv where
  mode : ExecMode
  args_file : String := "args.json"
  output_file : String := "out.json"
  child : ChildRun := {}
  parse : String → Except String WorkerOutput := fun _ => .ok {}

/-- The isolated-process branch of `_execute_task`
(task_queue.py:294-368), after both temporary files exist: a nonzero exit
code, an empty output file, an unparsable output file and a child-reported
failure each raise a distinct `RuntimeError`; otherwise the decoded
`result` field is the outcome. -/
def processOutcome (parse : String → Except String WorkerOutput)
    (child : ChildRun) : Except String Value :=
  if child.exit_code ≠ 0 then
    .error ("Worker process error: " ++ child.stderr.trim)
  else
    match (if child.output_content.trim = "" then
        Except.error "Empty output file"
      else parse child.output_content.trim) with
    | .error e => .error ("Failed to get result from worker: " ++ e)
    | .ok worker_output =>
      if worker_output.status = some "failed" then
        .error ((worker_output.error).getD "Unknown worker error")
      else .ok ((worker_output.result).getD .vnone)

/-- The outcome `_execute_task` observes for a task: the callable's own
behaviour in thread mode, the child-process translation in process mode. -/
def execOutcome (env : ExecEnv) (t : Task) : Except String Value :=
  match env.mode with
  | .thread => t.funcOutcome
  | .process => processOutcome env.parse env.child

/-- Lines 277-286 of `_execute_task`: look the record up; when present,
mark it `RUNNING`, stamp `started_at`, and best-effort update the database
row.  The returned flag says whether the record was found (`if not
task_result: return`). -/
def markRunning (s : QueueState) (id : String) (now : Int)
    (gatewayOk : Bool) : QueueState × Bool :=
  match lookupTask s.tasks id with
  | none => (s, false)
  | some _ =>
    ({ s with
       tasks := updateTask s.tasks id fun r =>
         { r with status := .running, started_at := some now }
       db := dbUpdateRow s.db id gatewayOk
         { status := some "running", started_at := some now } }, true)

/-- Lines 390-399 of `_execute_task`: `result.get("file_path") or
result.get("path") or result.get("output_path")` for a dict result, the
string itself for a string result, `None` otherwise. -/
def resultPathOf : Value → Option String
  | .vdict d => pyOrStr (pyOrStr (dictGet d "file_path") (dictGet d "path"))
      (dictGet d "output_path")
  | .vstr p => some p
  | .vnone => none

/-- The value `result.get("filename")` for a dict result, `os.path.basename` for a
string result, `None` otherwise. -/
def resultFilenameOf : Value → Option String
  | .vdict d => dictGet d "filename"
  | .vstr p => some (basename p)
  | .vnone => none

/-- Model of the `execution_time` computed at the end of `_execute_task`:
the difference between the completion instant and the record's
`started_at`, `None` when `started_at` is not set (only possible on the
failure path's guard). -/
def execTimeOf (s : QueueState) (id : String) (now : Int) : Option Int :=
  match lookupTask s.tasks id with
  | some r =>
    match r.started_at with
    | some st => some (now - st)
    | none => none
  | none => none

/-- Lines 384-439 of `_execute_task`: turn the execution outcome into the
terminal record update and the matching database write-through.  When the
record was not found the function returned early and nothing happens. -/
def finishExec (s : QueueState) (id : String) (found : Bool)
    (outcome : Except String Value) (now : Int) (gatewayOk : Bool) :
    QueueState :=
  if found then
    match outcome with
    | .ok v =>
      let rp := resultPathOf v
      let rf := resultFilenameOf v
      { s with
        tasks := updateTask s.tasks id fun r =>
          { r with status := .completed, result := some v,
                   completed_at := some now, result_path := rp,
                   result_filename := rf }
        db := dbUpdateRow s.db id gatewayOk
          { status := some "completed", completed_at := some now,
            result_path := rp, result_filename := rf,
            execution_time := execTimeOf s id now } }
    | .error e =>
      { s with
        tasks := updateTask s.tasks id fun r =>
          { r with status := .failed, error := some e,
                   completed_at := some now }
        db := dbUpdateRow s.db id gatewayOk
          { status := some "failed", completed_at := some now,
            error_message := some e,
            execution_time := execTimeOf s id now } }
  else s

/-- Effect of `os.unlink(path)` on the tracked set of existing temporary files. -/
def removeFile (files : List String) (name : String) : List String :=
  files.filter fun f => f ≠ name

/-- What one whole `_execute_task` call did: the new coordinator state, the
temporary files existing afterwards, whether the callable was invoked
in-process, and whether a child process was spawned. -/
structure ExecResult where
  state : QueueState
  files : List String
  invoked : Bool
  spawned : Bool
deriving Repr

/-- Model of `TaskQueue._execute_task` (task_queue.py:275-451) as one sequential
function.  `files` tracks the temporary files existing on disk: the process
branch creates the argument file and the output file before its `try`, and
its `finally` unlinks both whatever the outcome. -/
def execute_task (env : ExecEnv) (s : QueueState) (files : List String)
    (t : Task) (nowStart nowEnd : Int) (gatewayOk : Bool) : ExecResult :=
  match markRunning s t.task_id nowStart gatewayOk with
  | (_, false) => ⟨s, files, false, false⟩
  | (s1, true) =>
    let outcome := execOutcome env t
    let s2 := finishExec s1 t.task_id true outcome nowEnd gatewayOk
    match env.mode with
    | .thread => ⟨s2, files, true, false⟩
    | .process =>
      let files1 := files ++ [env.args_file, env.output_file]
      let files2 := removeFile (removeFile files1 env.args_file)
        env.output_file
      ⟨s2, files2, false, true⟩

/-! ### Interleaving semantics of the running coordinator

`start` spawns `self._max_workers` worker coroutines and one
`asyncio.Semaphore(1)` per accelerator index in `range(max(1, gpu_count))`.
Each worker `w` is pinned to index `worker_id % max(1, gpu_count)`.  The
event loop interleaves the coroutines at their `await` points; each segment
between two `await`s is atomic.  The transition system below has one label
per such segment that changes observable state, plus the public coordinator
operations callable concurrently from request handlers. -/

/-- The fixed configuration read at `start`: `torch.cuda.device_count()`
and `self._max_workers`. -/
structure SysConfig where
  gpu_count : Nat
  num_workers : Nat
deriving DecidableEq, Repr

/-- Number of accelerator slots: `max(1, gpu_count)` (one CPU-fallback
slot when no GPU is present). -/
def numSlots (cfg : SysConfig) : Nat := max 1 cfg.gpu_count

/-- The fixed accelerator index of worker `w`:
`worker_id % max(1, self._gpu_count)` (task_queue.py:244). -/
def gpuOf (cfg : SysConfig) (w : Nat) : Nat := w % numSlots cfg

/-- Where one worker coroutine is in its loop: polling the queue, holding a
dequeued task, executing it (the semaphore is held; `found` records whether
`_execute_task` found the record and marked it `RUNNING`), or done
executing but not yet past the `finally` that releases the semaphore. -/
inductive WPhase where
  | idle
  | gotTask (t : Task)
  | executing (t : Task) (found : Bool)
  | finishing (t : Task)
deriving DecidableEq, Repr

/-- Global state of the running system: the coordinator state, the
semaphores (`true` = free), and each worker's phase. -/
structure SysState where
  qs : QueueState
  sems : Nat → Bool
  workers : Nat → WPhase

/-- The state right after `start()`: empty queue and registry, all
semaphores free, all workers polling. -/
def initState : SysState :=
  { qs := { running := true }
    sems := fun _ => true
    workers := fun _ => .idle }

/-- One atomic transition of the running system. -/
inductive Step (cfg : SysConfig) : SysState → SysState → Prop
  /-- A request handler calls `submit` (the id is the fresh uuid). -/
  | submit {s : SysState} (id : String) (now : Int) (a : SubmitArgs)
      (gatewayOk : Bool) (qs' : QueueState)
      (hok : TaskQueue.submit s.qs id now a gatewayOk = .ok (id, qs')) :
      Step cfg s { s with qs := qs' }
  /-- A request handler calls `cancel_task`. -/
  | cancel {s : SysState} (id : String) (now : Int) (gatewayOk : Bool) :
      Step cfg s { s with qs := (TaskQueue.cancel_task s.qs id now gatewayOk).2 }
  /-- Housekeeping calls `cleanup_old_tasks`. -/
  | cleanup {s : SysState} (now : Int) (max_age_hours : Nat) :
      Step cfg s { s with qs := (TaskQueue.cleanup_old_tasks s.qs now max_age_hours).2 }
  /-- An idle worker's `await self._queue.get()` returns the queue head. -/
  | dequeue {s : SysState} (w : Nat) (t : Task) (rest : List Task)
      (hw : w < cfg.num_workers)
      (hph : s.workers w = .idle)
      (hq : s.qs.queue = t :: rest) :
      Step cfg s
        { s with qs := { s.qs with queue := rest }
                 workers := Function.update s.workers w (.gotTask t) }
  /-- Step where `await semaphore.acquire()` returns (the slot was free) and
  `_execute_task` runs up to its first `await`: the record lookup and, when
  found, the `RUNNING` mark. -/
  | acquire {s : SysState} (w : Nat) (t : Task) (now : Int)
      (gatewayOk : Bool)
      (hw : w < cfg.num_workers)
      (hph : s.workers w = .gotTask t)
      (hsem : s.sems (gpuOf cfg w) = true) :
      Step cfg s
        { s with qs := (markRunning s.qs t.task_id now gatewayOk).1
                 sems := Function.update s.sems (gpuOf cfg w) false
                 workers := Function.update s.workers w
                   (.executing t (markRunning s.qs t.task_id now gatewayOk).2) }
  /-- The execution finishes with `outcome` and `_execute_task` records the
  terminal state (no-op when the record was never found). -/
  | complete {s : SysState} (w : Nat) (t : Task) (found : Bool)
      (outcome : Except String Value) (now : Int) (gatewayOk : Bool)
      (hw : w < cfg.num_workers)
      (hph : s.workers w = .executing t found) :
      Step cfg s
        { s with qs := finishExec s.qs t.task_id found outcome now gatewayOk
                 workers := Function.update s.workers w (.finishing t) }
  /-- The worker's `finally` releases the semaphore and the loop polls
  again. -/
  | release {s : SysState} (w : Nat) (t : Task)
      (hw : w < cfg.num_workers)
      (hph : s.workers w = .finishing t) :
      Step cfg s
        { s with sems := Function.update s.sems (gpuOf cfg w) true
                 workers := Function.update s.workers w .idle }

/-- States reachable from the freshly started system. -/
inductive Reach (cfg : SysConfig) : SysState → Prop
  | init : Reach cfg initState
  | step {s s' : SysState} : Reach cfg s → Step cfg s s' → Reach cfg s'

/-- Whether a phase holds its accelerator's semaphore. -/
def WPhase.holdsSlot : WPhase → Bool
  | .executing _ _ => true
  | .finishing _ => true
  | _ => false

/-- The workers among a phase assignment currently holding the slot of
accelerator index `g`. -/
def holdersW (cfg : SysConfig) (wk : Nat → WPhase) (g : Nat) : List Nat :=
  (List.range cfg.num_workers).filter fun w =>
    (wk w).holdsSlot && decide (gpuOf cfg w = g)

/-- The workers currently holding the slot of accelerator index `g`. -/
def holders (cfg : SysConfig) (s : SysState) (g : Nat) : List Nat :=
  holdersW cfg s.workers g

/-- The ids of jobs whose record is currently `RUNNING` and whose executing
worker is pinned to accelerator index `g`. -/
def runningJobsOn (cfg : SysConfig) (s : SysState) (g : Nat) : List String :=
  (List.range cfg.num_workers).filterMap fun w =>
    match s.workers w with
    | .executing t true =>
      if gpuOf cfg w = g then
        match lookupTask s.qs.tasks t.task_id with
        | some r => if r.status = .running then some t.task_id else none
        | none => none
      else none
    | _ => none

/-- The inductive invariant of the running system. -/
structure Inv (cfg : SysConfig) (s : SysState) : Prop where
  /-- Workers beyond the pool are never spawned. -/
  bounded : ∀ w, cfg.num_workers ≤ w → s.workers w = .idle
  /-- A free semaphore has no holder. -/
  semFree : ∀ g, s.sems g = true → holders cfg s g = []
  /-- Each accelerator slot has at most one holder. -/
  semOne : ∀ g, (holders cfg s g).length ≤ 1
  /-- Every `RUNNING` record is being executed by some worker that found
  it. -/
  runExec : ∀ id r, lookupTask s.qs.tasks id = some r →
    r.status = .running →
    ∃ w t, s.workers w = .executing t true ∧ t.task_id = id
  /-- Registry keys are unique (Python dict). -/
  keysNodup : (s.qs.tasks.map Prod.fst).Nodup

/-! ### Registry lemmas -/

theorem lookupTask_cons (k : String) (v : TaskResult)
    (rest : List (String × TaskResult)) (id : String) :
    lookupTask ((k, v) :: rest) id =
      if k = id then some v else lookupTask rest id := rfl

theorem updateTask_cons (k : String) (v : TaskResult)
    (rest : List (String × TaskResult)) (id : String)
    (f : TaskResult → TaskResult) :
    updateTask ((k, v) :: rest) id f =
      (if k = id then (k, f v) else (k, v)) :: updateTask rest id f := rfl

theorem lookupTask_updateTask_self (ts : List (String × TaskResult))
    (id : String) (f : TaskResult → TaskResult) :
    lookupTask (updateTask ts id f) id = (lookupTask ts id).map f := by
  induction ts with
  | nil => rfl
  | cons p rest ih =>
    obtain ⟨k, v⟩ := p
    rw [updateTask_cons, lookupTask_cons]
    by_cases h : k = id
    · rw [if_pos h, lookupTask_cons, if_pos h, if_pos h]
      rfl
    · rw [if_neg h, lookupTask_cons, if_neg h, if_neg h, ih]

theorem lookupTask_updateTask_ne (ts : List (String × TaskResult))
    {id id' : String} (f : TaskResult → TaskResult) (h : id' ≠ id) :
    lookupTask (updateTask ts id f) id' = lookupTask ts id' := by
  induction ts with
  | nil => rfl
  | cons p rest ih =>
    obtain ⟨k, v⟩ := p
    rw [updateTask_cons, lookupTask_cons]
    by_cases hk : k = id
    · have hk' : k ≠ id' := by rw [hk]; exact fun hc => h hc.symm
      rw [if_pos hk, lookupTask_cons, if_neg hk', if_neg hk', ih]
    · rw [if_neg hk, lookupTask_cons]
      by_cases hk' : k = id'
      · rw [if_pos hk', if_pos hk']
      · rw [if_neg hk', if_neg hk', ih]

theorem keys_updateTask (ts : List (String × TaskResult)) (id : String)
    (f : TaskResult → TaskResult) :
    (updateTask ts id f).map Prod.fst = ts.map Prod.fst := by
  induction ts with
  | nil => rfl
  | cons p rest ih =>
    obtain ⟨k, v⟩ := p
    rw [updateTask_cons, List.map_cons, List.map_cons, ih]
    by_cases h : k = id
    · rw [if_pos h]
    · rw [if_neg h]

theorem lookupTask_append (ts us : List (String × TaskResult))
    (id : String) :
    lookupTask (ts ++ us) id =
      match lookupTask ts id with
      | some v => some v
      | none => lookupTask us id := by
  induction ts with
  | nil => rfl
  | cons p rest ih =>
    obtain ⟨k, v⟩ := p
    rw [List.cons_append, lookupTask_cons, lookupTask_cons]
    by_cases h : k = id
    · rw [if_pos h, if_pos h]
    · rw [if_neg h, if_neg h, ih]

theorem lookupTask_eq_none_iff (ts : List (String × TaskResult))
    (id : String) :
    lookupTask ts id = none ↔ id ∉ ts.map Prod.fst := by
  induction ts with
  | nil => simp [lookupTask]
  | cons p rest ih =>
    obtain ⟨k, v⟩ := p
    rw [lookupTask_cons, List.map_cons]
    by_cases h : k = id
    · rw [if_pos h]
      simp [h]
    · rw [if_neg h, ih]
      simp only [List.mem_cons]
      constructor
      · intro hn hc
        rcases hc with hc | hc
        · exact h hc.symm
        · exact hn hc
      · intro hn hc
        exact hn (Or.inr hc)

theorem lookupTask_of_mem {ts : List (String × TaskResult)}
    (hnd : (ts.map Prod.fst).Nodup) {pr : String × TaskResult}
    (hm : pr ∈ ts) : lookupTask ts pr.1 = some pr.2 := by
  induction ts with
  | nil => cases hm
  | cons q rest ih =>
    obtain ⟨k, v⟩ := q
    rw [List.map_cons, List.nodup_cons] at hnd
    rcases List.mem_cons.mp hm with h | h
    · subst h
      simp [lookupTask_cons]
    · have hk : k ≠ pr.1 := by
        intro hc
        have hmem : pr.1 ∈ rest.map Prod.fst := List.mem_map_of_mem Prod.fst h
        have : k ∈ rest.map Prod.fst := by rw [hc]; exact hmem
        exact hnd.1 this
      rw [lookupTask_cons, if_neg hk]
      exact ih hnd.2 h

theorem mem_of_lookupTask {ts : List (String × TaskResult)} {id : String}
    {r : TaskResult} (h : lookupTask ts id = some r) : (id, r) ∈ ts := by
  induction ts with
  | nil => cases h
  | cons q rest ih =>
    obtain ⟨k, v⟩ := q
    rw [lookupTask_cons] at h
    by_cases hk : k = id
    · rw [if_pos hk] at h
      cases h
      exact List.mem_cons.mpr (Or.inl (by rw [hk]))
    · rw [if_neg hk] at h
      exact List.mem_cons.mpr (Or.inr (ih h))

theorem any_key_eq_false_iff (ts : List (String × TaskResult))
    (id : String) :
    (ts.any fun p => p.1 = id) = false ↔ id ∉ ts.map Prod.fst := by
  induction ts with
  | nil => simp
  | cons p rest ih =>
    obtain ⟨k, v⟩ := p
    simp only [List.any_cons, List.map_cons, List.mem_cons,
      Bool.or_eq_false_iff, decide_eq_false_iff_not, ih]
    constructor
    · intro h hc
      rcases hc with hc | hc
      · exact h.1 hc.symm
      · exact h.2 hc
    · intro h
      exact ⟨fun hc => h (Or.inl hc.symm), fun hc => h (Or.inr hc)⟩

theorem any_key_eq_false_of_not_true {ts : List (String × TaskResult)}
    {id : String} (h : ¬ (ts.any fun p => p.1 = id) = true) :
    (ts.any fun p => p.1 = id) = false := by
  cases hc : ts.any fun p => p.1 = id
  · rfl
  · exact absurd hc h

theorem lookupTask_insertTask_self (ts : List (String × TaskResult))
    (id : String) (r : TaskResult) :
    lookupTask (insertTask ts id r) id = some r := by
  unfold insertTask
  split
  · rename_i hany
    induction ts with
    | nil => cases hany
    | cons p rest ih =>
      obtain ⟨k, v⟩ := p
      rw [List.map_cons]
      by_cases h : k = id
      · have hrepl : (if ((k, v) : String × TaskResult).1 = id then (id, r)
            else (k, v)) = (id, r) := by
          rw [if_pos h]
        rw [hrepl, lookupTask_cons, if_pos rfl]
      · have hrepl : (if ((k, v) : String × TaskResult).1 = id then (id, r)
            else (k, v)) = (k, v) := by
          rw [if_neg h]
        rw [hrepl, lookupTask_cons, if_neg h]
        rw [List.any_cons] at hany
        have hk : (decide (((k, v) : String × TaskResult).1 = id)) = false := by
          simp [h]
        rw [hk, Bool.false_or] at hany
        exact ih hany
  · rename_i hany
    rw [lookupTask_append]
    have hnone : lookupTask ts id = none := by
      rw [lookupTask_eq_none_iff]
      exact (any_key_eq_false_iff ts id).mp (any_key_eq_false_of_not_true hany)
    rw [hnone, lookupTask_cons, if_pos rfl]

theorem lookupTask_replaceAll_ne (ts : List (String × TaskResult))
    {id id' : String} (r : TaskResult) (h : id' ≠ id) :
    lookupTask (ts.map fun p => if p.1 = id then (id, r) else p) id' =
      lookupTask ts id' := by
  induction ts with
  | nil => rfl
  | cons p rest ih =>
    obtain ⟨k, v⟩ := p
    rw [List.map_cons, lookupTask_cons]
    by_cases hk : k = id
    · have hrepl : (if ((k, v) : String × TaskResult).1 = id then (id, r)
          else (k, v)) = (id, r) := by
        rw [if_pos hk]
      have hne : id ≠ id' := fun hc => h hc.symm
      have hkne : ¬ k = id' := by rw [hk]; exact hne
      rw [hrepl, lookupTask_cons, if_neg hne, if_neg hkne, ih]
    · have hrepl : (if ((k, v) : String × TaskResult).1 = id then (id, r)
          else (k, v)) = (k, v) := by
        rw [if_neg hk]
      rw [hrepl, lookupTask_cons, ih]

theorem keys_replaceAll (ts : List (String × TaskResult)) (id : String)
    (r : TaskResult) :
    ((ts.map fun p => if p.1 = id then (id, r) else p).map Prod.fst) =
      ts.map Prod.fst := by
  induction ts with
  | nil => rfl
  | cons p rest ih =>
    obtain ⟨k, v⟩ := p
    rw [List.map_cons, List.map_cons, List.map_cons, ih]
    by_cases h : k = id
    · have hrepl : (if ((k, v) : String × TaskResult).1 = id then (id, r)
          else (k, v)) = (id, r) := by
        rw [if_pos h]
      rw [hrepl]
      show id :: rest.map Prod.fst = k :: rest.map Prod.fst
      rw [h]
    · have hrepl : (if ((k, v) : String × TaskResult).1 = id then (id, r)
          else (k, v)) = (k, v) := by
        rw [if_neg h]
      rw [hrepl]

theorem lookupTask_insertTask_ne (ts : List (String × TaskResult))
    {id id' : String} (r : TaskResult) (h : id' ≠ id) :
    lookupTask (insertTask ts id r) id' = lookupTask ts id' := by
  unfold insertTask
  split
  · exact lookupTask_replaceAll_ne ts r h
  · rw [lookupTask_append]
    cases hl : lookupTask ts id' with
    | some v => rfl
    | none =>
      rw [lookupTask_cons, if_neg (fun hc => h hc.symm)]
      rfl

theorem keys_insertTask_nodup {ts : List (String × TaskResult)}
    (hnd : (ts.map Prod.fst).Nodup) (id : String) (r : TaskResult) :
    ((insertTask ts id r).map Prod.fst).Nodup := by
  unfold insertTask
  split
  · rw [keys_replaceAll]
    exact hnd
  · rename_i hany
    have hnm : id ∉ ts.map Prod.fst :=
      (any_key_eq_false_iff ts id).mp (any_key_eq_false_of_not_true hany)
    rw [List.map_append, List.nodup_append]
    refine ⟨hnd, List.nodup_singleton id, ?_⟩
    intro x hx hx'
    have hxid : x = id := by simpa using hx'
    rw [hxid] at hx
    exact hnm hx

theorem lookupTask_filter {ts : List (String × TaskResult)}
    (hnd : (ts.map Prod.fst).Nodup) (p : String × TaskResult → Bool)
    (id : String) :
    lookupTask (ts.filter p) id =
      match lookupTask ts id with
      | some r => if p (id, r) then some r else none
      | none => none := by
  induction ts with
  | nil => rfl
  | cons q rest ih =>
    obtain ⟨k, v⟩ := q
    rw [List.map_cons, List.nodup_cons] at hnd
    by_cases hk : k = id
    · have hpair : ((k, v) : String × TaskResult) = (id, v) := by rw [hk]
      have hrest : lookupTask rest id = none := by
        rw [lookupTask_eq_none_iff, ← hk]
        exact hnd.1
    -- head key matches: the filtered tail cannot contain the key again
      by_cases hpq : p (k, v) = true
      · rw [List.filter_cons_of_pos hpq, lookupTask_cons, if_pos hk,
          lookupTask_cons, if_pos hk]
        rw [hpair] at hpq
        show some v = if p (id, v) = true then some v else none
        rw [if_pos hpq]
      · have hpq' : p (k, v) = false := by
          cases hc : p (k, v)
          · rfl
          · exact absurd hc hpq
        rw [List.filter_cons_of_neg (by simp [hpq']), lookupTask_cons,
          if_pos hk, ih hnd.2, hrest]
        rw [hpair] at hpq'
        show none = if p (id, v) = true then some v else none
        rw [hpq']
        rfl
    · by_cases hpq : p (k, v) = true
      · rw [List.filter_cons_of_pos hpq, lookupTask_cons, if_neg hk,
          lookupTask_cons, if_neg hk, ih hnd.2]
      · have hpq' : p (k, v) = false := by
          cases hc : p (k, v)
          · rfl
          · exact absurd hc hpq
        rw [List.filter_cons_of_neg (by simp [hpq']), lookupTask_cons,
          if_neg hk, ih hnd.2]

/-! ### List and phase helpers for the interleaving system -/

theorem length_le_one_of_forall_eq {l : List Nat} (hnd : l.Nodup) {a : Nat}
    (h : ∀ x ∈ l, x = a) : l.length ≤ 1 := by
  cases l with
  | nil => simp
  | cons x xs =>
    cases xs with
    | nil => simp
    | cons y ys =>
      rw [List.nodup_cons] at hnd
      exfalso
      apply hnd.1
      have hx := h x (List.mem_cons_self _ _)
      have hy := h y (List.mem_cons.mpr (Or.inr (List.mem_cons_self _ _)))
      rw [hx, ← hy]
      exact List.mem_cons_self _ _

theorem eq_singleton_of_length_le_one {l : List Nat} (h : l.length ≤ 1)
    {a : Nat} (ha : a ∈ l) : l = [a] := by
  cases l with
  | nil => cases ha
  | cons x xs =>
    cases xs with
    | nil =>
      have : a = x := List.mem_singleton.mp ha
      rw [this]
    | cons y ys =>
      exfalso
      simp only [List.length_cons] at h
      omega

theorem length_filter_le_of_imp {α : Type} {l : List α} {p q : α → Bool}
    (h : ∀ x ∈ l, p x = true → q x = true) :
    (l.filter p).length ≤ (l.filter q).length := by
  induction l with
  | nil => simp
  | cons a l ih =>
    have ih' := ih fun x hx => h x (List.mem_cons.mpr (Or.inr hx))
    cases hp : p a with
    | true =>
      have hq := h a (List.mem_cons_self _ _) hp
      rw [List.filter_cons_of_pos hp, List.filter_cons_of_pos hq]
      simpa using ih'
    | false =>
      rw [List.filter_cons_of_neg (by simp [hp])]
      cases hq : q a with
      | true =>
        rw [List.filter_cons_of_pos hq]
        exact le_trans ih' (by simp)
      | false =>
        rw [List.filter_cons_of_neg (by simp [hq])]
        exact ih'

theorem mem_holdersW {cfg : SysConfig} {wk : Nat → WPhase} {g x : Nat} :
    x ∈ holdersW cfg wk g ↔
      x < cfg.num_workers ∧ (wk x).holdsSlot = true ∧ gpuOf cfg x = g := by
  unfold holdersW
  rw [List.mem_filter, List.mem_range]
  simp [Bool.and_eq_true, decide_eq_true_iff, and_assoc]

theorem holdersW_nodup (cfg : SysConfig) (wk : Nat → WPhase) (g : Nat) :
    (holdersW cfg wk g).Nodup :=
  (List.nodup_range _).filter _

theorem holdersW_update_of_holdsSlot_eq {cfg : SysConfig}
    {wk : Nat → WPhase} {w : Nat} {ph : WPhase}
    (h : ph.holdsSlot = (wk w).holdsSlot) (g : Nat) :
    holdersW cfg (Function.update wk w ph) g = holdersW cfg wk g := by
  unfold holdersW
  refine List.filter_congr fun x _ => ?_
  by_cases hx : x = w
  · rw [hx, Function.update_same, h]
  · rw [Function.update_noteq hx]

theorem holdersW_update_eq_of_gpu_ne (cfg : SysConfig) (wk : Nat → WPhase)
    (w : Nat) (ph : WPhase) (g : Nat) (hg : gpuOf cfg w ≠ g)
    (h : (wk w).holdsSlot = false) :
    holdersW cfg (Function.update wk w ph) g = holdersW cfg wk g := by
  unfold holdersW
  refine List.filter_congr fun x _ => ?_
  by_cases hx : x = w
  · rw [hx, Function.update_same, h]
    have : decide (gpuOf cfg w = g) = false := by
      simp [hg]
    rw [this]
    simp
  · rw [Function.update_noteq hx]

theorem keys_filter_nodup {ts : List (String × TaskResult)}
    (hnd : (ts.map Prod.fst).Nodup) (p : String × TaskResult → Bool) :
    ((ts.filter p).map Prod.fst).Nodup :=
  ((List.filter_sublist ts).map Prod.fst).nodup hnd


/-! ### Effect lemmas for the coordinator operations -/

theorem submit_ok {s : QueueState} {newId : String} {now : Int}
    {a : SubmitArgs} {g : Bool} {id' : String} {qs' : QueueState}
    (h : TaskQueue.submit s newId now a g = .ok (id', qs')) :
    id' = newId ∧ qs' = TaskQueue.submitState s newId now a g := by
  unfold TaskQueue.submit at h
  split at h
  · cases h
  · injection h with h'
    injection h' with h1 h2
    exact ⟨h1.symm, h2.symm⟩

theorem submitState_tasks (s : QueueState) (newId : String) (now : Int)
    (a : SubmitArgs) (g : Bool) :
    (TaskQueue.submitState s newId now a g).tasks =
      insertTask s.tasks newId
        (TaskQueue.submittedRecord s.queue.length newId now a) := by
  unfold TaskQueue.submitState
  split <;> rfl

theorem submitState_queue (s : QueueState) (newId : String) (now : Int)
    (a : SubmitArgs) (g : Bool) :
    (TaskQueue.submitState s newId now a g).queue =
      s.queue ++ [TaskQueue.submittedTask newId now a] := by
  unfold TaskQueue.submitState
  split <;> rfl

theorem submitState_running (s : QueueState) (newId : String) (now : Int)
    (a : SubmitArgs) (g : Bool) :
    (TaskQueue.submitState s newId now a g).running = s.running := by
  unfold TaskQueue.submitState
  split <;> rfl

theorem cancel_task_cases (s : QueueState) (id : String) (now : Int)
    (g : Bool) :
    (TaskQueue.cancel_task s id now g).2 = s ∨
    (∃ r, lookupTask s.tasks id = some r ∧ r.status = .pending ∧
      (TaskQueue.cancel_task s id now g).1 = true ∧
      (TaskQueue.cancel_task s id now g).2.tasks =
        updateTask s.tasks id (fun t =>
          { t with status := .cancelled, completed_at := some now })) := by
  cases hl : lookupTask s.tasks id with
  | none =>
    left
    unfold TaskQueue.cancel_task
    rw [hl]
  | some r =>
    by_cases hp : r.status = .pending
    · refine Or.inr ⟨r, rfl, hp, ?_, ?_⟩
      · unfold TaskQueue.cancel_task
        rw [hl]
        show (if r.status ≠ TaskStatus.pending then (false, s)
          else (true, _)).1 = true
        rw [if_neg (fun hc => hc hp)]
      · unfold TaskQueue.cancel_task
        rw [hl]
        show (if r.status ≠ TaskStatus.pending then (false, s)
          else (true, _)).2.tasks = _
        rw [if_neg (fun hc => hc hp)]
    · left
      unfold TaskQueue.cancel_task
      rw [hl]
      show (if r.status ≠ TaskStatus.pending then (false, s)
        else (true, _)).2 = s
      rw [if_pos hp]

theorem cleanup_tasks_eq (s : QueueState) (now : Int) (age : Nat) :
    ∃ p : String × TaskResult → Bool,
      (TaskQueue.cleanup_old_tasks s now age).2.tasks = s.tasks.filter p ∧
      (TaskQueue.cleanup_old_tasks s now age).2.queue = s.queue ∧
      (TaskQueue.cleanup_old_tasks s now age).2.running = s.running :=
  ⟨_, rfl, rfl, rfl⟩

theorem markRunning_none {s : QueueState} {id : String} (now : Int)
    (g : Bool) (h : lookupTask s.tasks id = none) :
    markRunning s id now g = (s, false) := by
  unfold markRunning
  rw [h]

theorem markRunning_some {s : QueueState} {id : String} (now : Int)
    (g : Bool) {r : TaskResult} (h : lookupTask s.tasks id = some r) :
    markRunning s id now g =
      ({ s with
         tasks := updateTask s.tasks id fun x =>
           { x with status := .running, started_at := some now }
         db := dbUpdateRow s.db id g
           { status := some "running", started_at := some now } }, true) := by
  unfold markRunning
  rw [h]

theorem finishExec_false (s : QueueState) (id : String)
    (outcome : Except String Value) (now : Int) (g : Bool) :
    finishExec s id false outcome now g = s := rfl

theorem finishExec_true_tasks (s : QueueState) (id : String)
    (outcome : Except String Value) (now : Int) (g : Bool) :
    ∃ st : TaskStatus, st ≠ .running ∧ st.isTerminal = true ∧
      ∃ f : TaskResult → TaskResult, (∀ r, (f r).status = st) ∧
        (finishExec s id true outcome now g).tasks =
          updateTask s.tasks id f ∧
        (finishExec s id true outcome now g).queue = s.queue ∧
        (finishExec s id true outcome now g).running = s.running := by
  cases outcome with
  | ok v =>
    exact ⟨.completed, fun hc => TaskStatus.noConfusion hc, rfl,
      ⟨fun r => { r with status := .completed
                         result := some v
                         completed_at := some now
                         result_path := resultPathOf v
                         result_filename := resultFilenameOf v },
        fun r => rfl, rfl, rfl, rfl⟩⟩
  | error e =>
    exact ⟨.failed, fun hc => TaskStatus.noConfusion hc, rfl,
      ⟨fun r => { r with status := .failed
                         error := some e
                         completed_at := some now },
        fun r => rfl, rfl, rfl, rfl⟩⟩



theorem finishExec_error_tasks (s : QueueState) (id : String) (e : String)
    (now : Int) (g : Bool) :
    (finishExec s id true (.error e) now g).tasks =
      updateTask s.tasks id fun r =>
        { r with status := .failed, error := some e,
                 completed_at := some now } := rfl

theorem finishExec_ok_tasks (s : QueueState) (id : String) (v : Value)
    (now : Int) (g : Bool) :
    (finishExec s id true (.ok v) now g).tasks =
      updateTask s.tasks id fun r =>
        { r with status := .completed, result := some v,
                 completed_at := some now, result_path := resultPathOf v,
                 result_filename := resultFilenameOf v } := rfl

/-! ### The inductive invariant holds in every reachable state -/

theorem inv_init (cfg : SysConfig) : Inv cfg initState := by
  refine ⟨fun w _ => rfl, fun g _ => ?_, fun g => ?_, ?_, ?_⟩
  · unfold holders holdersW
    exact List.filter_eq_nil_iff.mpr fun w _ => by simp [initState, WPhase.holdsSlot]
  · unfold holders holdersW
    rw [List.filter_eq_nil_iff.mpr fun w _ => by simp [initState, WPhase.holdsSlot]]
    simp
  · intro id r hl _
    cases hl
  · exact List.nodup_nil

theorem inv_step {cfg : SysConfig} {s s' : SysState} (hs : Inv cfg s)
    (st : Step cfg s s') : Inv cfg s' := by
  cases st with
  | submit id now a gOk qs' hok =>
    obtain ⟨-, hqs⟩ := submit_ok hok
    subst hqs
    refine ⟨hs.bounded, hs.semFree, hs.semOne, ?_, ?_⟩
    · intro id0 r hl hr
      rw [submitState_tasks] at hl
      by_cases hid : id0 = id
      · rw [hid, lookupTask_insertTask_self] at hl
        cases hl
        exact absurd hr (by intro hc; cases hc)
      · rw [lookupTask_insertTask_ne _ _ hid] at hl
        exact hs.runExec id0 r hl hr
    · show (((TaskQueue.submitState s.qs id now a gOk).tasks).map
        Prod.fst).Nodup
      rw [submitState_tasks]
      exact keys_insertTask_nodup hs.keysNodup _ _
  | cancel id now gOk =>
    rcases cancel_task_cases s.qs id now gOk with hsame |
      ⟨r0, hl0, hp0, -, htasks⟩
    · refine ⟨hs.bounded, hs.semFree, hs.semOne, ?_, ?_⟩
      · intro id0 r hl hr
        rw [show ((TaskQueue.cancel_task s.qs id now gOk).2).tasks =
          s.qs.tasks from by rw [hsame]] at hl
        exact hs.runExec id0 r hl hr
      · show ((((TaskQueue.cancel_task s.qs id now gOk).2).tasks).map
          Prod.fst).Nodup
        rw [hsame]
        exact hs.keysNodup
    · refine ⟨hs.bounded, hs.semFree, hs.semOne, ?_, ?_⟩
      · intro id0 r hl hr
        rw [show ((TaskQueue.cancel_task s.qs id now gOk).2).tasks =
          updateTask s.qs.tasks id (fun t =>
            { t with status := .cancelled, completed_at := some now })
          from htasks] at hl
        by_cases hid : id0 = id
        · rw [hid, lookupTask_updateTask_self, hl0] at hl
          cases hl
          exact absurd hr (by intro hc; cases hc)
        · rw [lookupTask_updateTask_ne _ _ hid] at hl
          exact hs.runExec id0 r hl hr
      · show ((((TaskQueue.cancel_task s.qs id now gOk).2).tasks).map
          Prod.fst).Nodup
        rw [htasks, keys_updateTask]
        exact hs.keysNodup
  | cleanup now age =>
    obtain ⟨p, htasks, -, -⟩ := cleanup_tasks_eq s.qs now age
    refine ⟨hs.bounded, hs.semFree, hs.semOne, ?_, ?_⟩
    · intro id0 r hl hr
      rw [show ((TaskQueue.cleanup_old_tasks s.qs now age).2).tasks =
        s.qs.tasks.filter p from htasks] at hl
      rw [lookupTask_filter hs.keysNodup p id0] at hl
      cases hlk : lookupTask s.qs.tasks id0 with
      | none =>
        simp only [hlk] at hl
        exact Option.noConfusion hl
      | some r1 =>
        simp only [hlk] at hl
        by_cases hpq : p (id0, r1) = true
        · rw [if_pos hpq] at hl
          cases hl
          exact hs.runExec id0 _ hlk hr
        · rw [if_neg hpq] at hl
          exact Option.noConfusion hl
    · show ((((TaskQueue.cleanup_old_tasks s.qs now age).2).tasks).map
        Prod.fst).Nodup
      rw [htasks]
      exact keys_filter_nodup hs.keysNodup p
  | dequeue w t rest hw hph hq =>
    have hhold : ∀ g,
        holdersW cfg (Function.update s.workers w (.gotTask t)) g =
          holdersW cfg s.workers g :=
      fun g => holdersW_update_of_holdsSlot_eq (by rw [hph]; rfl) g
    refine ⟨?_, ?_, ?_, ?_, hs.keysNodup⟩
    · intro w' hw'
      show Function.update s.workers w (.gotTask t) w' = .idle
      have hne : w' ≠ w := by omega
      rw [Function.update_noteq hne]
      exact hs.bounded w' hw'
    · intro g hg
      show holdersW cfg (Function.update s.workers w (.gotTask t)) g = []
      rw [hhold g]
      exact hs.semFree g hg
    · intro g
      show (holdersW cfg (Function.update s.workers w (.gotTask t))
        g).length ≤ 1
      rw [hhold g]
      exact hs.semOne g
    · intro id0 r hl hr
      obtain ⟨w2, t2, hw2, hid2⟩ := hs.runExec id0 r hl hr
      have hne : w2 ≠ w := by
        intro hc
        rw [hc, hph] at hw2
        cases hw2
      exact ⟨w2, t2, by
        show Function.update s.workers w (.gotTask t) w2 = _
        rw [Function.update_noteq hne]
        exact hw2, hid2⟩
  | acquire w t now gOk hw hph hsem =>
    refine ⟨?_, ?_, ?_, ?_, ?_⟩
    · intro w' hw'
      show Function.update s.workers w
        (.executing t (markRunning s.qs t.task_id now gOk).2) w' = .idle
      have hne : w' ≠ w := by omega
      rw [Function.update_noteq hne]
      exact hs.bounded w' hw'
    · intro g hg
      have hg2 : Function.update s.sems (gpuOf cfg w) false g = true := hg
      by_cases hgg : g = gpuOf cfg w
      · rw [hgg, Function.update_same] at hg2
        cases hg2
      · rw [Function.update_noteq hgg] at hg2
        have hhold : holdersW cfg (Function.update s.workers w
            (.executing t (markRunning s.qs t.task_id now gOk).2)) g =
            holdersW cfg s.workers g :=
          holdersW_update_eq_of_gpu_ne cfg s.workers w
            (.executing t (markRunning s.qs t.task_id now gOk).2) g
            (fun hc => hgg hc.symm) (by rw [hph]; rfl)
        show holdersW cfg (Function.update s.workers w
          (.executing t (markRunning s.qs t.task_id now gOk).2)) g = []
        rw [hhold]
        exact hs.semFree g hg2
    · intro g
      show (holdersW cfg (Function.update s.workers w
        (.executing t (markRunning s.qs t.task_id now gOk).2)) g).length ≤ 1
      by_cases hgg : g = gpuOf cfg w
      · subst hgg
        have hempty : holdersW cfg s.workers (gpuOf cfg w) = [] :=
          hs.semFree (gpuOf cfg w) hsem
        refine length_le_one_of_forall_eq (holdersW_nodup _ _ _)
          (a := w) ?_
        intro x hx
        by_contra hxw
        obtain ⟨hxlt, hxslot, hxg⟩ := mem_holdersW.mp hx
        rw [Function.update_noteq hxw] at hxslot
        have hmem : x ∈ holdersW cfg s.workers (gpuOf cfg w) :=
          mem_holdersW.mpr ⟨hxlt, hxslot, hxg⟩
        rw [hempty] at hmem
        cases hmem
      · have hhold : holdersW cfg (Function.update s.workers w
            (.executing t (markRunning s.qs t.task_id now gOk).2)) g =
            holdersW cfg s.workers g :=
          holdersW_update_eq_of_gpu_ne cfg s.workers w
            (.executing t (markRunning s.qs t.task_id now gOk).2) g
            (fun hc => hgg hc.symm) (by rw [hph]; rfl)
        rw [hhold]
        exact hs.semOne g
    · intro id0 r hl hr
      cases hlk : lookupTask s.qs.tasks t.task_id with
      | none =>
        have hmr := markRunning_none now gOk hlk
        rw [show ((markRunning s.qs t.task_id now gOk).1).tasks =
          s.qs.tasks from by rw [hmr]] at hl
        obtain ⟨w2, t2, hw2, hid2⟩ := hs.runExec id0 r hl hr
        have hne : w2 ≠ w := by
          intro hc
          rw [hc, hph] at hw2
          cases hw2
        exact ⟨w2, t2, by
          show Function.update s.workers w
            (.executing t (markRunning s.qs t.task_id now gOk).2) w2 = _
          rw [Function.update_noteq hne]
          exact hw2, hid2⟩
      | some r0 =>
        have hmr := markRunning_some now gOk hlk
        rw [show ((markRunning s.qs t.task_id now gOk).1).tasks =
          updateTask s.qs.tasks t.task_id (fun x =>
            { x with status := .running, started_at := some now })
          from by rw [hmr]] at hl
        by_cases hid : id0 = t.task_id
        · refine ⟨w, t, ?_, hid.symm⟩
          show Function.update s.workers w
            (.executing t (markRunning s.qs t.task_id now gOk).2) w = _
          rw [Function.update_same]
          rw [show (markRunning s.qs t.task_id now gOk).2 = true
            from by rw [hmr]]
        · rw [lookupTask_updateTask_ne _ _ hid] at hl
          obtain ⟨w2, t2, hw2, hid2⟩ := hs.runExec id0 r hl hr
          have hne : w2 ≠ w := by
            intro hc
            rw [hc, hph] at hw2
            cases hw2
          exact ⟨w2, t2, by
            show Function.update s.workers w
              (.executing t (markRunning s.qs t.task_id now gOk).2) w2 = _
            rw [Function.update_noteq hne]
            exact hw2, hid2⟩
    · cases hlk : lookupTask s.qs.tasks t.task_id with
      | none =>
        have hmr := markRunning_none now gOk hlk
        show ((((markRunning s.qs t.task_id now gOk).1).tasks).map
          Prod.fst).Nodup
        rw [show ((markRunning s.qs t.task_id now gOk).1).tasks =
          s.qs.tasks from by rw [hmr]]
        exact hs.keysNodup
      | some r0 =>
        have hmr := markRunning_some now gOk hlk
        show ((((markRunning s.qs t.task_id now gOk).1).tasks).map
          Prod.fst).Nodup
        rw [show ((markRunning s.qs t.task_id now gOk).1).tasks =
          updateTask s.qs.tasks t.task_id (fun x =>
            { x with status := .running, started_at := some now })
          from by rw [hmr]]
        rw [keys_updateTask]
        exact hs.keysNodup
  | complete w t found outcome now gOk hw hph =>
    have hhold : ∀ g,
        holdersW cfg (Function.update s.workers w (.finishing t)) g =
          holdersW cfg s.workers g :=
      fun g => holdersW_update_of_holdsSlot_eq (by rw [hph]; rfl) g
    refine ⟨?_, ?_, ?_, ?_, ?_⟩
    · intro w' hw'
      show Function.update s.workers w (.finishing t) w' = .idle
      have hne : w' ≠ w := by omega
      rw [Function.update_noteq hne]
      exact hs.bounded w' hw'
    · intro g hg
      show holdersW cfg (Function.update s.workers w (.finishing t)) g = []
      rw [hhold g]
      exact hs.semFree g hg
    · intro g
      show (holdersW cfg (Function.update s.workers w (.finishing t))
        g).length ≤ 1
      rw [hhold g]
      exact hs.semOne g
    · intro id0 r hl hr
      cases found with
      | false =>
        rw [show (finishExec s.qs t.task_id false outcome now gOk).tasks =
          s.qs.tasks from by rw [finishExec_false]] at hl
        obtain ⟨w2, t2, hw2, hid2⟩ := hs.runExec id0 r hl hr
        have hne : w2 ≠ w := by
          intro hc
          rw [hc, hph] at hw2
          cases hw2
        exact ⟨w2, t2, by
          show Function.update s.workers w (.finishing t) w2 = _
          rw [Function.update_noteq hne]
          exact hw2, hid2⟩
      | true =>
        obtain ⟨st', hstne, -, f, hfst, htasks, -, -⟩ :=
          finishExec_true_tasks s.qs t.task_id outcome now gOk
        rw [htasks] at hl
        by_cases hid : id0 = t.task_id
        · rw [hid, lookupTask_updateTask_self] at hl
          cases hlk : lookupTask s.qs.tasks t.task_id with
          | none => rw [hlk] at hl; cases hl
          | some r1 =>
            rw [hlk] at hl
            cases hl
            rw [hfst r1] at hr
            exact absurd hr hstne
        · rw [lookupTask_updateTask_ne _ _ hid] at hl
          obtain ⟨w2, t2, hw2, hid2⟩ := hs.runExec id0 r hl hr
          have hne : w2 ≠ w := by
            intro hc
            rw [hc, hph] at hw2
            injection hw2 with ht2 hf2
            rw [← ht2] at hid2
            exact hid hid2.symm
          exact ⟨w2, t2, by
            show Function.update s.workers w (.finishing t) w2 = _
            rw [Function.update_noteq hne]
            exact hw2, hid2⟩
    · cases found with
      | false =>
        show (((finishExec s.qs t.task_id false outcome now gOk).tasks).map
          Prod.fst).Nodup
        rw [show (finishExec s.qs t.task_id false outcome now gOk).tasks =
          s.qs.tasks from by rw [finishExec_false]]
        exact hs.keysNodup
      | true =>
        obtain ⟨st', -, -, f, -, htasks, -, -⟩ :=
          finishExec_true_tasks s.qs t.task_id outcome now gOk
        show (((finishExec s.qs t.task_id true outcome now gOk).tasks).map
          Prod.fst).Nodup
        rw [htasks, keys_updateTask]
        exact hs.keysNodup
  | release w t hw hph =>
    have hwmem : w ∈ holdersW cfg s.workers (gpuOf cfg w) :=
      mem_holdersW.mpr ⟨hw, by rw [hph]; rfl, rfl⟩
    have hsingle : holdersW cfg s.workers (gpuOf cfg w) = [w] :=
      eq_singleton_of_length_le_one (hs.semOne (gpuOf cfg w)) hwmem
    refine ⟨?_, ?_, ?_, ?_, hs.keysNodup⟩
    · intro w' hw'
      show Function.update s.workers w .idle w' = .idle
      by_cases hne : w' = w
      · rw [hne, Function.update_same]
      · rw [Function.update_noteq hne]
        exact hs.bounded w' hw'
    · intro g hg
      have hg2 : Function.update s.sems (gpuOf cfg w) true g = true := hg
      show holdersW cfg (Function.update s.workers w .idle) g = []
      rw [List.eq_nil_iff_forall_not_mem]
      intro x hx
      obtain ⟨hxlt, hxslot, hxg⟩ := mem_holdersW.mp hx
      by_cases hxw : x = w
      · rw [hxw, Function.update_same] at hxslot
        cases hxslot
      · rw [Function.update_noteq hxw] at hxslot
        have hxs : x ∈ holdersW cfg s.workers g :=
          mem_holdersW.mpr ⟨hxlt, hxslot, hxg⟩
        by_cases hgg : g = gpuOf cfg w
        · rw [hgg, hsingle] at hxs
          exact hxw (List.mem_singleton.mp hxs)
        · rw [Function.update_noteq hgg] at hg2
          have hnil : holdersW cfg s.workers g = [] := hs.semFree g hg2
          rw [hnil] at hxs
          cases hxs
    · intro g
      have h1 : (holdersW cfg (Function.update s.workers w .idle) g).length
          ≤ (holdersW cfg s.workers g).length := by
        unfold holdersW
        refine length_filter_le_of_imp ?_
        intro x _ hpx
        by_cases hxw : x = w
        · rw [hxw, Function.update_same] at hpx
          simp [WPhase.holdsSlot] at hpx
        · rw [Function.update_noteq hxw] at hpx
          exact hpx
      exact le_trans h1 (hs.semOne g)
    · intro id0 r hl hr
      obtain ⟨w2, t2, hw2, hid2⟩ := hs.runExec id0 r hl hr
      have hne : w2 ≠ w := by
        intro hc
        rw [hc, hph] at hw2
        cases hw2
      exact ⟨w2, t2, by
        show Function.update s.workers w .idle w2 = _
        rw [Function.update_noteq hne]
        exact hw2, hid2⟩

/-- Every reachable state satisfies the invariant. -/
theorem inv_reach {cfg : SysConfig} {s : SysState} (h : Reach cfg s) :
    Inv cfg s := by
  induction h with
  | init => exact inv_init cfg
  | step _ st ih => exact inv_step ih st



/-! ### Claim C2: accelerator exclusivity -/

theorem length_filterMap_eq_length_filter {α β : Type} (l : List α)
    (f : α → Option β) :
    (l.filterMap f).length = (l.filter fun a => (f a).isSome).length := by
  induction l with
  | nil => rfl
  | cons a l ih =>
    cases hf : f a with
    | none =>
      rw [List.filterMap_cons_none hf,
        List.filter_cons_of_neg (by simp [hf]), ih]
    | some b =>
      rw [List.filterMap_cons_some hf,
        List.filter_cons_of_pos (by simp [hf])]
      simp [ih]

theorem runningJobsOn_length_le_holders (cfg : SysConfig) (s : SysState)
    (g : Nat) :
    (runningJobsOn cfg s g).length ≤ (holdersW cfg s.workers g).length := by
  unfold runningJobsOn holdersW
  rw [length_filterMap_eq_length_filter]
  refine length_filter_le_of_imp ?_
  intro x _ hpx
  cases hphase : s.workers x with
  | executing t fnd =>
    cases fnd with
    | false => simp [hphase] at hpx
    | true =>
      by_cases hgx : gpuOf cfg x = g
      · simp [hphase, hgx, WPhase.holdsSlot]
      · simp [hphase, hgx] at hpx
  | idle => simp [hphase] at hpx
  | gotTask t => simp [hphase] at hpx
  | finishing t => simp [hphase] at hpx

/-- C2: In every reachable state of the running coordinator, (a) for each
accelerator index at most one job is in `RUNNING` status while being
executed by a worker pinned to that index, (b) every `RUNNING` record is
being executed by a worker pinned to some index, (c) each worker's index is
fixed as `worker_id % max(1, gpu_count)` — index `0` when no accelerator
exists —, and (d) a worker executing a job holds its index's
mutual-exclusion slot. -/
theorem accelerator_exclusivity (cfg : SysConfig) (s : SysState)
    (h : Reach cfg s) :
    (∀ g, (runningJobsOn cfg s g).length ≤ 1) ∧
    (∀ id r, lookupTask s.qs.tasks id = some r → r.status = .running →
      ∃ g, id ∈ runningJobsOn cfg s g) ∧
    (∀ w, gpuOf cfg w = w % max 1 cfg.gpu_count) ∧
    (cfg.gpu_count = 0 → ∀ w, gpuOf cfg w = 0) ∧
    (∀ w t f, s.workers w = .executing t f →
      s.sems (gpuOf cfg w) = false) := by
  have hinv := inv_reach h
  refine ⟨?_, ?_, fun w => rfl, ?_, ?_⟩
  · intro g
    exact le_trans (runningJobsOn_length_le_holders cfg s g) (hinv.semOne g)
  · intro id r hl hr
    obtain ⟨w2, t2, hw2, hid2⟩ := hinv.runExec id r hl hr
    have hw2lt : w2 < cfg.num_workers := by
      by_contra hc
      rw [hinv.bounded w2 (Nat.le_of_not_lt hc)] at hw2
      cases hw2
    refine ⟨gpuOf cfg w2, ?_⟩
    unfold runningJobsOn
    refine List.mem_filterMap.mpr ⟨w2, List.mem_range.mpr hw2lt, ?_⟩
    simp only [hw2, if_pos rfl, hid2, hl, hr]
    simp
  · intro h0 w
    unfold gpuOf numSlots
    rw [h0]
    exact Nat.mod_one w
  · intro w t f hw0
    have hwlt : w < cfg.num_workers := by
      by_contra hc
      rw [hinv.bounded w (Nat.le_of_not_lt hc)] at hw0
      cases hw0
    cases hsemv : s.sems (gpuOf cfg w) with
    | false => rfl
    | true =>
      exfalso
      have hmem : w ∈ holdersW cfg s.workers (gpuOf cfg w) :=
        mem_holdersW.mpr ⟨hwlt, by rw [hw0]; rfl, rfl⟩
      have hnil : holdersW cfg s.workers (gpuOf cfg w) = [] :=
        hinv.semFree (gpuOf cfg w) hsemv
      rw [hnil] at hmem
      cases hmem

/-- Witness for C2 at a concrete configuration and the initial reachable
state. -/
theorem accelerator_exclusivity_witness :
    (runningJobsOn ⟨1, 1⟩ initState 0).length ≤ 1 :=
  (accelerator_exclusivity ⟨1, 1⟩ initState Reach.init).1 0



/-! ### Claim C4: cancel semantics -/

theorem cancel_task_none {s : QueueState} {id : String} (now : Int)
    (g : Bool) (hl : lookupTask s.tasks id = none) :
    TaskQueue.cancel_task s id now g = (false, s) := by
  unfold TaskQueue.cancel_task
  rw [hl]

theorem cancel_task_not_pending {s : QueueState} {id : String}
    {r : TaskResult} (now : Int) (g : Bool)
    (hl : lookupTask s.tasks id = some r) (hp : r.status ≠ .pending) :
    TaskQueue.cancel_task s id now g = (false, s) := by
  unfold TaskQueue.cancel_task
  rw [hl]
  show (if r.status ≠ TaskStatus.pending then (false, s)
    else (true, _)) = (false, s)
  rw [if_pos hp]

theorem cancel_task_pending {s : QueueState} {id : String}
    {r : TaskResult} (now : Int) (g : Bool)
    (hl : lookupTask s.tasks id = some r) (hp : r.status = .pending) :
    TaskQueue.cancel_task s id now g =
      (true,
       { s with
         tasks := updateTask s.tasks id fun t =>
           { t with status := .cancelled, completed_at := some now }
         db := dbUpdateRow s.db id g
           { status := some "cancelled", completed_at := some now } }) := by
  unfold TaskQueue.cancel_task
  rw [hl]
  show (if r.status ≠ TaskStatus.pending then (false, s)
    else (true, _)) = _
  rw [if_neg (fun hc => hc hp)]

/-- C4: `cancel_task` returns `True` iff the job exists and is `PENDING` at
the moment of the call, in which case the record transitions to
`CANCELLED`; it returns `False` (it never raises — it is a total function)
for a running, terminal or unknown job, leaving the state unchanged; and a
second cancel of the same job never returns `True` again. -/
theorem cancel_task_spec (s : QueueState) (id : String) (now now2 : Int)
    (gOk gOk2 : Bool) :
    ((TaskQueue.cancel_task s id now gOk).1 = true ↔
      ∃ r, lookupTask s.tasks id = some r ∧ r.status = .pending) ∧
    ((TaskQueue.cancel_task s id now gOk).1 = true →
      ∃ r', lookupTask (TaskQueue.cancel_task s id now gOk).2.tasks id =
          some r' ∧ r'.status = .cancelled ∧
          r'.completed_at = some now) ∧
    ((TaskQueue.cancel_task s id now gOk).1 = false →
      (TaskQueue.cancel_task s id now gOk).2 = s) ∧
    ((TaskQueue.cancel_task s id now gOk).1 = true →
      (TaskQueue.cancel_task (TaskQueue.cancel_task s id now gOk).2 id
        now2 gOk2).1 = false) := by
  cases hl : lookupTask s.tasks id with
  | none =>
    rw [cancel_task_none now gOk hl]
    refine ⟨⟨fun hc => Bool.noConfusion hc, ?_⟩,
      fun hc => Bool.noConfusion hc, fun _ => rfl,
      fun hc => Bool.noConfusion hc⟩
    rintro ⟨r, hr, -⟩
    cases hr
  | some r =>
    by_cases hp : r.status = .pending
    · rw [cancel_task_pending now gOk hl hp]
      have hlook : lookupTask (updateTask s.tasks id fun t =>
          { t with status := .cancelled, completed_at := some now }) id =
          some { r with status := .cancelled, completed_at := some now } := by
        rw [lookupTask_updateTask_self, hl]
        rfl
      refine ⟨⟨fun _ => ⟨r, rfl, hp⟩, fun _ => rfl⟩, ?_, ?_, ?_⟩
      · intro _
        exact ⟨_, hlook, rfl, rfl⟩
      · intro hc
        cases hc
      · intro _
        rw [cancel_task_not_pending now2 gOk2 hlook
          (fun hc => TaskStatus.noConfusion hc)]
    · rw [cancel_task_not_pending now gOk hl hp]
      refine ⟨⟨fun hc => Bool.noConfusion hc, ?_⟩,
        fun hc => Bool.noConfusion hc, fun _ => rfl,
        fun hc => Bool.noConfusion hc⟩
      rintro ⟨r2, hr2, hp2⟩
      cases hr2
      exact absurd hp2 hp

/-- Witness for C4: a concrete pending job is cancelled once, and only
once. -/
theorem cancel_task_spec_witness :
    ((TaskQueue.cancel_task
      { running := true,
        tasks := [("t1", { task_id := "t1", status := .pending })] }
      "t1" 5 true).1 = true ↔
      ∃ r, lookupTask [("t1",
        { task_id := "t1", status := TaskStatus.pending })] "t1" = some r ∧
        r.status = .pending) ∧
    ((TaskQueue.cancel_task
      { running := true,
        tasks := [("t1", { task_id := "t1", status := .pending })] }
      "t1" 5 true).1 = true →
      ∃ r', lookupTask (TaskQueue.cancel_task
        { running := true,
          tasks := [("t1", { task_id := "t1", status := .pending })] }
        "t1" 5 true).2.tasks "t1" = some r' ∧
        r'.status = .cancelled ∧ r'.completed_at = some 5) ∧
    ((TaskQueue.cancel_task
      { running := true,
        tasks := [("t1", { task_id := "t1", status := .pending })] }
      "t1" 5 true).1 = false →
      (TaskQueue.cancel_task
        { running := true,
          tasks := [("t1", { task_id := "t1", status := .pending })] }
        "t1" 5 true).2 =
        { running := true,
          tasks := [("t1", { task_id := "t1", status := .pending })] }) ∧
    ((TaskQueue.cancel_task
      { running := true,
        tasks := [("t1", { task_id := "t1", status := .pending })] }
      "t1" 5 true).1 = true →
      (TaskQueue.cancel_task (TaskQueue.cancel_task
        { running := true,
          tasks := [("t1", { task_id := "t1", status := .pending })] }
        "t1" 5 true).2 "t1" 9 false).1 = false) :=
  cancel_task_spec
    { running := true,
      tasks := [("t1", { task_id := "t1", status := .pending })] }
    "t1" 5 9 true false

/-! ### Claim C10: dequeued item with no registry record is skipped -/

/-- C10: when `_execute_task` is given a task whose id is absent from the
in-memory registry it returns immediately: the callable is never invoked,
no child process is spawned, and the coordinator state — registry, queue
and database rows alike — is left untouched. -/
theorem execute_task_unknown_id (env : ExecEnv) (s : QueueState)
    (files : List String) (t : Task) (nowS nowE : Int) (gOk : Bool)
    (h : lookupTask s.tasks t.task_id = none) :
    execute_task env s files t nowS nowE gOk = ⟨s, files, false, false⟩ := by
  unfold execute_task
  rw [markRunning_none nowS gOk h]

/-- Witness for C10: a concrete dequeued task with an unknown id. -/
theorem execute_task_unknown_id_witness :
    execute_task { mode := .thread } { running := true } []
      { task_id := "ghost", funcOutcome := .ok .vnone } 1 2 true =
      ⟨{ running := true }, [], false, false⟩ :=
  execute_task_unknown_id { mode := .thread } { running := true } []
    { task_id := "ghost", funcOutcome := .ok .vnone } 1 2 true rfl



/-! ### Claim C7: cleanup removes exactly the old terminal records -/

theorem mem_keys_filter_iff (f : TaskResult → Bool)
    {ts : List (String × TaskResult)} (hnd : (ts.map Prod.fst).Nodup)
    {pr : String × TaskResult} (hm : pr ∈ ts) :
    (pr.1 ∈ (ts.filter fun p => f p.2).map Prod.fst) ↔ f pr.2 = true := by
  constructor
  · intro hmem
    rcases List.mem_map.mp hmem with ⟨q, hq, hfst⟩
    have hq2 := List.mem_filter.mp hq
    have h1 : lookupTask ts q.1 = some q.2 := lookupTask_of_mem hnd hq2.1
    have h2 : lookupTask ts pr.1 = some pr.2 := lookupTask_of_mem hnd hm
    rw [hfst] at h1
    rw [h1] at h2
    injection h2 with h3
    rw [← h3]
    exact hq2.2
  · intro hp
    exact List.mem_map.mpr ⟨pr, List.mem_filter.mpr ⟨hm, hp⟩, rfl⟩

theorem cleanup_old_tasks_tasks (s : QueueState) (now : Int) (age : Nat)
    (hnd : (s.tasks.map Prod.fst).Nodup) :
    (TaskQueue.cleanup_old_tasks s now age).2.tasks =
      s.tasks.filter fun p => ! TaskQueue.removable now age p.2 := by
  show s.tasks.filter _ = _
  refine List.filter_congr ?_
  intro p hp
  have hiff := mem_keys_filter_iff
    (fun r => TaskQueue.removable now age r) hnd hp
  cases hrb : TaskQueue.removable now age p.2 with
  | true =>
    have hm := hiff.mpr hrb
    simp [hm, hrb]
  | false =>
    have hm : ¬ p.1 ∈ ((s.tasks.filter fun q =>
        TaskQueue.removable now age q.2).map Prod.fst) := by
      intro hc
      have h4 : TaskQueue.removable now age p.2 = true := hiff.mp hc
      rw [h4] at hrb
      cases hrb
    simp [hm, hrb]

/-- C7: `cleanup_old_tasks` removes from the registry exactly the records
that are terminal with a set `completed_at` strictly older than the cutoff
`now - max_age_hours` hours; the returned count is the number of removed
records; every other record is still queryable afterwards; the queue and
the database rows are untouched. -/
theorem cleanup_old_tasks_spec (s : QueueState) (now : Int) (age : Nat)
    (hnd : (s.tasks.map Prod.fst).Nodup) :
    ((TaskQueue.cleanup_old_tasks s now age).2.tasks =
      s.tasks.filter fun p => ! TaskQueue.removable now age p.2) ∧
    ((TaskQueue.cleanup_old_tasks s now age).1 =
      (s.tasks.filter fun p => TaskQueue.removable now age p.2).length) ∧
    (∀ r : TaskResult, TaskQueue.removable now age r = true ↔
      (r.status.isTerminal = true ∧ ∃ c, r.completed_at = some c ∧
        c < now - (age : Int) * TaskQueue.msPerHour)) ∧
    (∀ id r, lookupTask s.tasks id = some r →
      TaskQueue.removable now age r = false →
      lookupTask (TaskQueue.cleanup_old_tasks s now age).2.tasks id =
        some r) ∧
    ((TaskQueue.cleanup_old_tasks s now age).2.queue = s.queue ∧
      (TaskQueue.cleanup_old_tasks s now age).2.db = s.db ∧
      (TaskQueue.cleanup_old_tasks s now age).2.running = s.running) := by
  refine ⟨cleanup_old_tasks_tasks s now age hnd, ?_, ?_, ?_, rfl, rfl, rfl⟩
  · show (((s.tasks.filter fun p =>
      TaskQueue.removable now age p.2).map Prod.fst).length) = _
    rw [List.length_map]
  · intro r
    unfold TaskQueue.removable
    cases hc : r.completed_at with
    | none => simp [hc]
    | some c => simp [hc]
  · intro id r hl hrm
    rw [cleanup_old_tasks_tasks s now age hnd]
    rw [lookupTask_filter hnd _ id]
    simp only [hl]
    rw [if_pos (by simp [hrm])]

/-- Witness for C7: a registry with one stale completed record and one
pending record; only the stale one is removed. -/
theorem cleanup_old_tasks_spec_witness :
    (TaskQueue.cleanup_old_tasks
      { running := true,
        tasks := [("old", { task_id := "old", status := .completed,
                            completed_at := some 0 }),
                  ("new", { task_id := "new", status := .pending })] }
      100000000 24).2.tasks =
      ([("old", { task_id := "old", status := .completed,
                  completed_at := some 0 }),
        ("new", { task_id := "new", status := .pending })] :
        List (String × TaskResult)).filter
        (fun p => ! TaskQueue.removable 100000000 24 p.2) :=
  (cleanup_old_tasks_spec
    { running := true,
      tasks := [("old", { task_id := "old", status := .completed,
                          completed_at := some 0 }),
                ("new", { task_id := "new", status := .pending })] }
    100000000 24 (by decide)).1

/-! ### Claim C9: submit admission -/

theorem insertTask_fresh {ts : List (String × TaskResult)} {id : String}
    (r : TaskResult) (h : ¬ id ∈ ts.map Prod.fst) :
    insertTask ts id r = ts ++ [(id, r)] := by
  unfold insertTask
  rw [if_neg]
  intro hc
  rw [(any_key_eq_false_iff ts id).mpr h] at hc
  cases hc

/-- C9: `submit` raises `RuntimeError` when the queue is not running
(leaving no state to observe — the call never constructs a new state);
otherwise it returns the fresh job id immediately together with the new
state, in which the record is registered as `PENDING`, exactly one work
item is appended to the queue carrying that id, the running flag is
unchanged, and — the id being fresh — the pending count of
`get_queue_info` is one larger. -/
theorem submit_spec (gc mw : Nat) (s : QueueState) (newId : String)
    (now : Int) (a : SubmitArgs) (gOk : Bool) :
    (s.running = false →
      TaskQueue.submit s newId now a gOk = .error "任务队列未启动") ∧
    (s.running = true →
      TaskQueue.submit s newId now a gOk =
        .ok (newId, TaskQueue.submitState s newId now a gOk) ∧
      lookupTask (TaskQueue.submitState s newId now a gOk).tasks newId =
        some (TaskQueue.submittedRecord s.queue.length newId now a) ∧
      (TaskQueue.submittedRecord s.queue.length newId now a).status =
        .pending ∧
      (TaskQueue.submitState s newId now a gOk).queue =
        s.queue ++ [TaskQueue.submittedTask newId now a] ∧
      (TaskQueue.submittedTask newId now a).task_id = newId ∧
      (TaskQueue.submitState s newId now a gOk).running = true ∧
      (¬ newId ∈ s.tasks.map Prod.fst →
        (TaskQueue.get_queue_info gc mw
          (TaskQueue.submitState s newId now a gOk) none).pending =
        (TaskQueue.get_queue_info gc mw s none).pending + 1)) := by
  constructor
  · intro hrun
    unfold TaskQueue.submit
    rw [if_pos hrun]
  · intro hrun
    have hne : ¬ s.running = false := by
      rw [hrun]
      exact fun hc => Bool.noConfusion hc
    refine ⟨?_, ?_, rfl, submitState_queue s newId now a gOk, rfl, ?_, ?_⟩
    · unfold TaskQueue.submit
      rw [if_neg hne]
    · rw [submitState_tasks, lookupTask_insertTask_self]
    · rw [submitState_running, hrun]
    · intro hfresh
      show ((TaskQueue.submitState s newId now a gOk).tasks.filter
        fun p => p.2.status = .pending).length =
        (s.tasks.filter fun p => p.2.status = .pending).length + 1
      rw [submitState_tasks, insertTask_fresh _ hfresh,
        List.filter_append, List.length_append]
      simp [TaskQueue.submittedRecord]

/-- Witness for C9: submitting to a concrete running queue with a fresh id
increases the pending count by one. -/
theorem submit_spec_witness :
    (TaskQueue.get_queue_info 1 1
      (TaskQueue.submitState
        { running := true,
          tasks := [("t1", { task_id := "t1", status := .pending })] }
        "t2" 7 { funcOutcome := .ok .vnone } true) none).pending =
    (TaskQueue.get_queue_info 1 1
      { running := true,
        tasks := [("t1", { task_id := "t1", status := .pending })] }
      none).pending + 1 :=
  ((submit_spec 1 1
    { running := true,
      tasks := [("t1", { task_id := "t1", status := .pending })] }
    "t2" 7 { funcOutcome := .ok .vnone } true).2 rfl).2.2.2.2.2.2
    (by decide)



/-! ### Claim C1: a job cancelled while pending is executed anyway -/

/-- The submission used in the C1 scenario. -/
def c1args : SubmitArgs :=
  { funcOutcome := .ok (.vstr "outputs/img.png"),
    task_type := some "text_to_image", prompt0 := some "a cat" }

/-- The coordinator state after `start()` and one `submit`. -/
def c1s1 : QueueState :=
  match TaskQueue.submit { running := true } "job-1" 0 c1args true with
  | .ok (_, qs) => qs
  | .error _ => { running := true }

/-- The result of cancelling the still-pending job. -/
def c1cancel : Bool × QueueState :=
  TaskQueue.cancel_task c1s1 "job-1" 5 true

/-- The work item `submit` enqueued for the job. -/
def c1task : Task := TaskQueue.submittedTask "job-1" 0 c1args

/-- The state after a worker dequeues the (still queued) work item of the
cancelled job and runs `_execute_task` in thread mode. -/
def c1exec : ExecResult :=
  execute_task { mode := .thread } c1cancel.2 [] c1task 10 20 true

/-- C1: counterexample trace showing the code leaving a terminal state.
`cancel_task` returns `True` and the record becomes `CANCELLED`
(a terminal status), but the work item is still on the queue; when a worker
dequeues it, `_execute_task` re-checks nothing (task_queue.py:277-282),
marks the record `RUNNING` and finally `COMPLETED`.  The terminal
`CANCELLED` status is left, contradicting the state-machine invariant. -/
theorem cancelled_job_reexecuted :
    c1cancel.1 = true ∧
    (lookupTask c1cancel.2.tasks "job-1").map (fun r => r.status) =
      some .cancelled ∧
    TaskStatus.cancelled.isTerminal = true ∧
    c1cancel.2.queue = [c1task] ∧
    (lookupTask c1exec.state.tasks "job-1").map (fun r => r.status) =
      some .completed :=
  ⟨rfl, rfl, rfl, rfl, rfl⟩

/-! ### Claim C3: getResult with timeout 0 -/

/-- A registry holding one still-pending job, for the C3 scenario. -/
def c3tasks : List (String × TaskResult) :=
  [("t1", { task_id := "t1", status := .pending })]

set_option maxRecDepth 4000 in
/-- C3 counterexample: with `timeout = 0` (falsy in Python, hence treated
as *no* timeout by `if timeout and ...:`) the poll loop on a still-pending
job is still polling after 100 iterations (50 seconds); it does not return
immediately. -/
theorem get_task_result_timeout_zero_still_polling :
    TaskQueue.get_task_result_fuel c3tasks "t1" (some 0) 0 100 =
      .stillPolling := rfl

/-- C3 amended: `timeout = 0` is falsy, so the loop never takes the
timeout branch and polls as long as the job stays `PENDING`; only a
strictly positive timeout makes `get_task_result` return the still-pending
record after finitely many polls. -/
theorem get_task_result_pending_spec
    (tasks : List (String × TaskResult)) (id : String) (r : TaskResult)
    (hl : lookupTask tasks id = some r) (hp : r.status = .pending) :
    (∀ elapsed fuel, TaskQueue.get_task_result_fuel tasks id (some 0)
      elapsed fuel = .stillPolling) ∧
    (∀ t : Int, 0 < t → ∃ fuel,
      TaskQueue.get_task_result_fuel tasks id (some t) 0 fuel =
        .returned (some r)) := by
  have hterm : r.status.isTerminal = false := by rw [hp]; rfl
  constructor
  · intro elapsed fuel
    induction fuel generalizing elapsed with
    | zero => rfl
    | succ n ih =>
      unfold TaskQueue.get_task_result_fuel
      simp only [hl]
      rw [if_neg (by rw [hterm]; exact fun hc => Bool.noConfusion hc)]
      rw [if_neg (by
        show ¬ (TaskQueue.timeoutTruthy (some 0) &&
          decide (elapsed > (some (0 : Int)).getD 0)) = true
        intro hc
        rw [show TaskQueue.timeoutTruthy (some 0) = false from by
          unfold TaskQueue.timeoutTruthy; simp] at hc
        rw [Bool.false_and] at hc
        exact Bool.noConfusion hc)]
      exact ih (elapsed + 500)
  · intro t ht
    have htt : TaskQueue.timeoutTruthy (some t) = true := by
      unfold TaskQueue.timeoutTruthy
      simp
      omega
    have key : ∀ (n : Nat) (elapsed : Int), t < elapsed + 500 * n →
        TaskQueue.get_task_result_fuel tasks id (some t) elapsed (n + 1) =
          .returned (some r) := by
      intro n
      induction n with
      | zero =>
        intro elapsed hlt
        unfold TaskQueue.get_task_result_fuel
        simp only [hl]
        rw [if_neg (by rw [hterm]; exact fun hc => Bool.noConfusion hc)]
        rw [if_pos (by
          show (TaskQueue.timeoutTruthy (some t) &&
            decide (elapsed > (some t).getD 0)) = true
          rw [htt, Bool.true_and]
          simp only [Option.getD]
          apply decide_eq_true
          omega)]
      | succ n ih =>
        intro elapsed hlt
        unfold TaskQueue.get_task_result_fuel
        simp only [hl]
        rw [if_neg (by rw [hterm]; exact fun hc => Bool.noConfusion hc)]
        by_cases hgt : elapsed > t
        · rw [if_pos (by
            show (TaskQueue.timeoutTruthy (some t) &&
              decide (elapsed > (some t).getD 0)) = true
            rw [htt, Bool.true_and]
            simp only [Option.getD]
            exact decide_eq_true hgt)]
        · rw [if_neg (by
            show ¬ (TaskQueue.timeoutTruthy (some t) &&
              decide (elapsed > (some t).getD 0)) = true
            rw [htt, Bool.true_and]
            simp only [Option.getD]
            intro hc
            exact hgt (of_decide_eq_true hc))]
          exact ih (elapsed + 500) (by omega)
    refine ⟨t.toNat / 500 + 2, ?_⟩
    have h5 := Nat.div_add_mod t.toNat 500
    have hm : t.toNat % 500 < 500 := Nat.mod_lt _ (by omega)
    refine key (t.toNat / 500 + 1) 0 ?_
    have htn : (t.toNat : Int) = t := Int.toNat_of_nonneg (le_of_lt ht)
    omega

/-- Witness for C3 amended: the loop really is still polling with timeout
`0`, and really returns with a positive timeout, on the concrete pending
registry. -/
theorem get_task_result_pending_spec_witness :
    (∀ elapsed fuel, TaskQueue.get_task_result_fuel c3tasks "t1" (some 0)
      elapsed fuel = .stillPolling) ∧
    (∀ t : Int, 0 < t → ∃ fuel,
      TaskQueue.get_task_result_fuel c3tasks "t1" (some t) 0 fuel =
        .returned (some { task_id := "t1", status := .pending })) :=
  get_task_result_pending_spec c3tasks "t1"
    { task_id := "t1", status := .pending } rfl rfl



/-! ### Claim C5: execution failures become Failed records -/

/-- A running coordinator holding one pending record, for the C5
scenario. -/
def c5state : QueueState :=
  { running := true, tasks := [("t1", { task_id := "t1", status := .pending })] }

/-- A work item whose callable raises an exception with an empty message
(`raise ValueError()` gives `str(e) = ""`). -/
def c5task : Task := { task_id := "t1", funcOutcome := .error "" }

/-- The state after the worker executes `c5task` in thread mode. -/
def c5exec : ExecResult :=
  execute_task { mode := .thread } c5state [] c5task 1 2 true

/-- C5 counterexample: an exception whose `str(e)` is empty yields a
`FAILED` record whose captured `error` string is present but empty —
refuting that every execution failure carries a *non-empty* message. -/
theorem failed_job_error_may_be_empty :
    (lookupTask c5exec.state.tasks "t1").map (fun r => (r.status, r.error))
      = some (.failed, some "") ∧ ("" : String).length = 0 :=
  ⟨rfl, rfl⟩

/-- C5 amended: every execution failure (a raised exception in thread
mode; a nonzero child exit, an empty output file, an unparsable output
file or a child-reported failure in process mode) turns the record
`FAILED` with `error` set to the captured message — which is non-empty on
the exit-code / empty-file / unparsable paths thanks to their constant
prefixes, but is exactly the exception's or child's own message otherwise
and may then be empty — and the worker loop survives: from the
`finishing` phase the release transition is always enabled and returns the
worker to `idle` polling. -/
theorem execution_failure_spec (env : ExecEnv) (s : QueueState)
    (files : List String) (t : Task) (nowS nowE : Int) (gOk : Bool)
    (r0 : TaskResult) (hl : lookupTask s.tasks t.task_id = some r0) :
    (∀ msg, execOutcome env t = .error msg →
      ∃ r, lookupTask
          (execute_task env s files t nowS nowE gOk).state.tasks
          t.task_id = some r ∧ r.status = .failed ∧ r.error = some msg ∧
          r.completed_at = some nowE) ∧
    (env.child.exit_code ≠ 0 →
      processOutcome env.parse env.child =
        .error ("Worker process error: " ++ env.child.stderr.trim)) ∧
    (env.child.exit_code = 0 → env.child.output_content.trim = "" →
      processOutcome env.parse env.child =
        .error "Failed to get result from worker: Empty output file") ∧
    (∀ e, env.child.exit_code = 0 → env.child.output_content.trim ≠ "" →
      env.parse (env.child.output_content.trim) = .error e →
      processOutcome env.parse env.child =
        .error ("Failed to get result from worker: " ++ e)) ∧
    (∀ o, env.child.exit_code = 0 → env.child.output_content.trim ≠ "" →
      env.parse (env.child.output_content.trim) = .ok o →
      o.status = some "failed" →
      processOutcome env.parse env.child =
        .error ((o.error).getD "Unknown worker error")) ∧
    ((∀ x : String, ("Worker process error: " ++ x) ≠ "") ∧
      (∀ e : String, ("Failed to get result from worker: " ++ e) ≠ "")) ∧
    (∀ (cfg : SysConfig) (sys : SysState) (w : Nat) (tk : Task),
      w < cfg.num_workers → sys.workers w = .finishing tk →
      Step cfg sys
        { sys with
          sems := Function.update sys.sems (gpuOf cfg w) true
          workers := Function.update sys.workers w .idle } ∧
      Function.update sys.workers w WPhase.idle w = .idle) := by
  have hmr := markRunning_some nowS gOk hl
  refine ⟨?_, ?_, ?_, ?_, ?_, ⟨?_, ?_⟩, ?_⟩
  · intro msg hout
    have hstate : (execute_task env s files t nowS nowE gOk).state =
        finishExec (markRunning s t.task_id nowS gOk).1 t.task_id true
          (execOutcome env t) nowE gOk := by
      unfold execute_task
      rw [hmr]
      cases env.mode <;> rfl
    rw [hstate, hout]
    have h2 : lookupTask (finishExec (markRunning s t.task_id nowS gOk).1
        t.task_id true (.error msg) nowE gOk).tasks t.task_id =
        some { ({ r0 with status := .running, started_at := some nowS })
               with status := .failed, error := some msg,
                    completed_at := some nowE } := by
      rw [finishExec_error_tasks, lookupTask_updateTask_self]
      rw [show (markRunning s t.task_id nowS gOk).1.tasks =
        updateTask s.tasks t.task_id (fun x =>
          { x with status := .running, started_at := some nowS })
        from by rw [hmr]]
      rw [lookupTask_updateTask_self, hl]
      rfl
    exact ⟨_, h2, rfl, rfl, rfl⟩
  · intro hexit
    unfold processOutcome
    rw [if_pos hexit]
  · intro hexit hempty
    unfold processOutcome
    rw [if_neg (fun hc => hc hexit), if_pos hempty]
    decide
  · intro e hexit hne hparse
    unfold processOutcome
    rw [if_neg (fun hc => hc hexit), if_neg hne, hparse]
  · intro o hexit hne hparse hstat
    unfold processOutcome
    rw [if_neg (fun hc => hc hexit), if_neg hne, hparse]
    show (if o.status = some "failed" then _ else _) = _
    rw [if_pos hstat]
  · intro x hc
    have hlen := congrArg String.length hc
    rw [String.length_append] at hlen
    rw [show ("Worker process error: " : String).length = 22 from rfl,
      show ("" : String).length = 0 from rfl] at hlen
    omega
  · intro e hc
    have hlen := congrArg String.length hc
    rw [String.length_append] at hlen
    rw [show ("Failed to get result from worker: " : String).length = 34
      from rfl, show ("" : String).length = 0 from rfl] at hlen
    omega
  · intro cfg sys w tk hwlt hfin
    exact ⟨Step.release w tk hwlt hfin, Function.update_same w _ _⟩

/-- Witness for C5 amended: a child exiting with code 1 and stderr
`"boom"` yields the prefixed, non-empty error message. -/
theorem execution_failure_spec_witness :
    processOutcome (fun _ => .ok {})
      { exit_code := 1, stderr := "boom" } =
      .error ("Worker process error: " ++ ("boom" : String).trim) :=
  (execution_failure_spec
    { mode := .process, child := { exit_code := 1, stderr := "boom" },
      parse := fun _ => .ok {} }
    c5state [] c5task 1 2 true _ rfl).2.1 (by decide)

/-! ### Claim C6: the Pending write-through happens only with metadata -/

/-- C6 counterexample: a `submit` on the running queue with the gateway
healthy but no `_task_type` writes no row at all — the claim promises a
`Pending` row for *every* submit. -/
theorem submit_without_task_type_writes_no_row :
    TaskQueue.submit { running := true } "t1" 0
      { funcOutcome := .ok .vnone, prompt0 := some "a cat" } true =
      .ok ("t1", TaskQueue.submitState { running := true } "t1" 0
        { funcOutcome := .ok .vnone, prompt0 := some "a cat" } true) ∧
    (TaskQueue.submitState { running := true } "t1" 0
      { funcOutcome := .ok .vnone, prompt0 := some "a cat" } true).db =
      [] :=
  ⟨rfl, rfl⟩

/-- C6 amended: while the queue runs, `submit` returns the job id for any
gateway behaviour; a `pending` row is written exactly when both the task
type and the effective prompt are truthy and the gateway call succeeds;
a gateway failure is swallowed, and missing/empty metadata writes no
row. -/
theorem submit_db_write_spec (s : QueueState) (newId : String) (now : Int)
    (a : SubmitArgs) (hrun : s.running = true) :
    (∀ gOk, TaskQueue.submit s newId now a gOk =
      .ok (newId, TaskQueue.submitState s newId now a gOk)) ∧
    (truthy a.task_type = true →
      truthy (TaskQueue.submittedPrompt a) = true →
      ((TaskQueue.submitState s newId now a true).db =
        s.db ++ [{ task_id := newId, user_id := a.user_id,
                   task_type := a.task_type,
                   prompt := TaskQueue.submittedPrompt a,
                   negative_prompt := TaskQueue.submittedNegativePrompt a,
                   parameters := a.parameters,
                   status := "pending" }] ∧
       (TaskQueue.submitState s newId now a false).db = s.db)) ∧
    ((truthy a.task_type = false ∨
      truthy (TaskQueue.submittedPrompt a) = false) →
      ∀ gOk, (TaskQueue.submitState s newId now a gOk).db = s.db) := by
  refine ⟨?_, ?_, ?_⟩
  · intro gOk
    unfold TaskQueue.submit
    rw [if_neg (by rw [hrun]; exact fun hc => Bool.noConfusion hc)]
  · intro h1 h2
    constructor
    · unfold TaskQueue.submitState
      rw [if_pos (show (truthy a.task_type &&
          truthy (TaskQueue.submittedPrompt a)) = true from by
        rw [h1, h2]; rfl)]
      rfl
    · unfold TaskQueue.submitState
      rw [if_pos (show (truthy a.task_type &&
          truthy (TaskQueue.submittedPrompt a)) = true from by
        rw [h1, h2]; rfl)]
      rfl
  · intro hor gOk
    unfold TaskQueue.submitState
    rw [if_neg (show ¬ (truthy a.task_type &&
        truthy (TaskQueue.submittedPrompt a)) = true from by
      intro hc
      rcases hor with h | h
      · rw [h] at hc
        simp at hc
      · rw [h] at hc
        simp at hc)]

/-- Witness for C6 amended: with both metadata fields set and the gateway
healthy, the concrete submit appends exactly one `pending` row. -/
theorem submit_db_write_spec_witness :
    (TaskQueue.submitState { running := true } "t9" 3
      { funcOutcome := .ok .vnone, task_type := some "text_to_image",
        prompt0 := some "a cat" } true).db =
    ([] : List DbRow) ++
      [{ task_id := "t9", user_id := none,
         task_type := some "text_to_image", prompt := some "a cat",
         negative_prompt := none, status := "pending" }] :=
  ((submit_db_write_spec { running := true } "t9" 3
    { funcOutcome := .ok .vnone, task_type := some "text_to_image",
      prompt0 := some "a cat" } rfl).2.1 rfl rfl).1



/-! ### Claim C8: temporary files are always removed -/

theorem filter_ne_of_not_mem {l : List String} {a : String}
    (h : ¬ a ∈ l) : (l.filter fun f => f ≠ a) = l := by
  refine List.filter_eq_self.mpr ?_
  intro x hx
  apply decide_eq_true
  intro hc
  rw [hc] at hx
  exact h hx

theorem removeFile_both {files : List String} {a o : String}
    (h1 : ¬ a ∈ files) (h2 : ¬ o ∈ files) (h3 : a ≠ o) :
    removeFile (removeFile (files ++ [a, o]) a) o = files := by
  unfold removeFile
  rw [List.filter_append, filter_ne_of_not_mem h1]
  have hfo : (([a, o] : List String).filter fun f => f ≠ a) = [o] := by
    rw [List.filter_cons_of_neg (by simp),
      List.filter_cons_of_pos (by
        apply decide_eq_true
        exact fun hc => h3 hc.symm)]
    rfl
  rw [hfo, List.filter_append, filter_ne_of_not_mem h2]
  rw [List.filter_cons_of_neg (by simp)]
  simp

/-- C8: in the isolated-process mode, whatever the child process and the
output-file parse do (success, nonzero exit, empty output, unparsable
output, child-reported failure), the `finally` of `_execute_task` removes
both temporary files: the file set afterwards equals the one before, and
in particular neither temporary file is left behind; meanwhile the job's
record (when it was found) has reached a terminal status. -/
theorem temp_files_removed (env : ExecEnv) (s : QueueState)
    (files : List String) (t : Task) (nowS nowE : Int) (gOk : Bool)
    (hmode : env.mode = .process)
    (h1 : ¬ env.args_file ∈ files) (h2 : ¬ env.output_file ∈ files)
    (h3 : env.args_file ≠ env.output_file) :
    (execute_task env s files t nowS nowE gOk).files = files ∧
    ¬ env.args_file ∈ (execute_task env s files t nowS nowE gOk).files ∧
    ¬ env.output_file ∈ (execute_task env s files t nowS nowE gOk).files ∧
    (∀ r0, lookupTask s.tasks t.task_id = some r0 →
      ∃ r, lookupTask
        (execute_task env s files t nowS nowE gOk).state.tasks
        t.task_id = some r ∧ r.status.isTerminal = true) := by
  cases hlk : lookupTask s.tasks t.task_id with
  | none =>
    have hexec : execute_task env s files t nowS nowE gOk =
        ⟨s, files, false, false⟩ := by
      unfold execute_task
      rw [markRunning_none nowS gOk hlk]
    rw [hexec]
    refine ⟨rfl, h1, h2, ?_⟩
    intro r0 hr0
    cases hr0
  | some r0' =>
    have hmr := markRunning_some nowS gOk hlk
    have hexec : execute_task env s files t nowS nowE gOk =
        ⟨finishExec (markRunning s t.task_id nowS gOk).1 t.task_id true
          (execOutcome env t) nowE gOk,
         removeFile (removeFile (files ++ [env.args_file, env.output_file])
           env.args_file) env.output_file,
         false, true⟩ := by
      unfold execute_task
      rw [hmr, hmode]
    have hfiles : removeFile (removeFile
        (files ++ [env.args_file, env.output_file]) env.args_file)
        env.output_file = files := removeFile_both h1 h2 h3
    rw [hexec]
    refine ⟨hfiles, ?_, ?_, ?_⟩
    · show ¬ env.args_file ∈ removeFile (removeFile
        (files ++ [env.args_file, env.output_file]) env.args_file)
        env.output_file
      rw [hfiles]
      exact h1
    · show ¬ env.output_file ∈ removeFile (removeFile
        (files ++ [env.args_file, env.output_file]) env.args_file)
        env.output_file
      rw [hfiles]
      exact h2
    · intro r0 hr0
      obtain ⟨st, hstne, hstterm, f, hfst, htasks, -, -⟩ :=
        finishExec_true_tasks (markRunning s t.task_id nowS gOk).1
          t.task_id (execOutcome env t) nowE gOk
      show ∃ r, lookupTask (finishExec (markRunning s t.task_id nowS
        gOk).1 t.task_id true (execOutcome env t) nowE gOk).tasks
        t.task_id = some r ∧ r.status.isTerminal = true
      rw [htasks, lookupTask_updateTask_self]
      rw [show (markRunning s t.task_id nowS gOk).1.tasks =
        updateTask s.tasks t.task_id (fun x =>
          { x with status := .running, started_at := some nowS })
        from by rw [hmr]]
      rw [lookupTask_updateTask_self, hlk]
      refine ⟨_, rfl, ?_⟩
      rw [hfst]
      exact hstterm

/-- Witness for C8: a concrete process-mode execution with a failing child
leaves exactly the pre-existing files on disk. -/
theorem temp_files_removed_witness :
    (execute_task
      { mode := .process, args_file := "args.json",
        output_file := "out.json",
        child := { exit_code := 1, stderr := "oom" },
        parse := fun _ => .ok {} }
      c5state ["keep.txt"] { task_id := "t1", funcOutcome := .ok .vnone }
      1 2 true).files = ["keep.txt"] :=
  (temp_files_removed
    { mode := .process, args_file := "args.json",
      output_file := "out.json",
      child := { exit_code := 1, stderr := "oom" },
      parse := fun _ => .ok {} }
    c5state ["keep.txt"] { task_id := "t1", funcOutcome := .ok .vnone }
    1 2 true rfl (by decide) (by decide) (by decide)).1


end App
